import Mathlib

/-!
# Verification of the AP_GSOF byte-stream decoder

Shallow embedding of `libraries/AP_GSOF/AP_GSOF.cpp`: the byte-stream
finite-state machine (`AP_GSOF::parse`), the record dispatcher
(`AP_GSOF::process_message`) and the eight per-kind field decoders
(`parse_pos_time` .. `parse_llh_msl`), together with theorems settling the
frozen claims about them.

Modelling conventions:
* Machine integers are `Nat` with explicit truncation: `uint8_t` cells and
  parameters are taken mod 256 (`byteAt`, the `% 256` in `parse`), and the
  dispatch-cursor arithmetic that the source performs on a `uint32_t`
  (`a += output_length - 1u`) is taken mod `U32 = 2^32`.
* `f32`/`f64` fields are modelled by the big-endian bit pattern read from the
  wire (`be32tofloat_ptr` / `be64todouble_ptr` reinterpret bits; the pattern
  determines the value).  No claim concerns floating-point arithmetic; the one
  arithmetic operation in the decoders, the `RAD_TO_DEG_DOUBLE *` scaling in
  `parse_llh_msl`, is a fixed post-processing of the stored pattern and is
  dropped from the model (noted again at the definition); no claim mentions
  the numeric value of the `llh_msl` fields.
* The payload buffer `msg.data` (a `uint8_t` array) is modelled as a function
  `Nat → Nat`; every value stored through `parse` is already reduced mod 256,
  and every read re-applies the reduction, mirroring the cell type.
* The output slots (`pos_time`, `position`, ... members of `AP_GSOF`) are
  grouped in one structure `Outputs` so that output-preservation statements
  can be written as equalities.
* The record-kind codes (`POS_TIME` .. `LLH_MSL`), the bitset capacity
  (`parsed_msgs.size()`) and the `int` result codes of `parse` are declared in
  `AP_GSOF.h`, which is not part of the sources at hand; they are modelled
  from the spec: one code per record kind, all inside `0 ..
  max-known-kind`, and two distinct result codes `NO_GSOF_DATA` /
  `PARSED_GSOF_DATA`.
* `process_message`'s item loop is written with an explicit fuel argument
  (`pmLoop`), instantiated with `msg.length` at the call site; every iteration
  advances the cursor by at least two whenever `msg.length < 256` (the only
  values a stored length byte can take), so the fuel can never be exhausted on
  a reachable state.  On fuel exhaustion the model returns the loop-exit
  value.
* The SITL branch of the out-of-range-kind check calls `AP_HAL::panic`; the
  model embeds the production (`#else`) branch, `return false`.
-/

namespace APGSOF

/-- The states of `Msg_Parser::State` in the source. -/
inductive PState where
  | STARTTX
  | STATUS
  | PACKETTYPE
  | LENGTH
  | DATA
  | CHECKSUM
  | ENDTX
deriving DecidableEq, Repr

/-- The two result codes `AP_GSOF::parse` returns (declared in the header,
modelled from the spec: `FrameOk` versus `Incomplete`/`FrameBad`). -/
inductive ParseResult where
  | NO_GSOF_DATA
  | PARSED_GSOF_DATA
deriving DecidableEq, Repr

/-- The `Msg_Parser` struct: FSM state, header bytes, declared length, payload
buffer, count of payload bytes received, running checksum, received checksum
and end marker. -/
structure MsgState where
  state : PState
  status : Nat
  packettype : Nat
  length : Nat
  data : Nat → Nat
  read : Nat
  checksumcalc : Nat
  checksum : Nat
  endtx : Nat

/-- Output slot for GSOF 1 (`pos_time`). -/
structure PosTime where
  time_week_ms : Nat
  time_week : Nat
  num_sats : Nat
  pos_flags1 : Nat
  pos_flags2 : Nat
deriving DecidableEq, Repr

/-- Output slot for GSOF 2 (`position`). -/
structure Position where
  latitude_rad : Nat
  longitude_rad : Nat
  altitude : Nat
deriving DecidableEq, Repr

/-- Output slot for GSOF 8 (`vel`).  `velocity_flags` is the gating field the
source tests with `BIT_IS_SET`. -/
structure Velocity where
  velocity_flags : Nat
  horizontal_velocity : Nat
  vertical_velocity : Nat
  heading : Nat
deriving DecidableEq, Repr

/-- Output slot for GSOF 9 (`dop`). -/
structure Dop where
  hdop : Nat
deriving DecidableEq, Repr

/-- Output slot for GSOF 12 (`pos_sigma`). -/
structure PosSigma where
  sigma_east : Nat
  sigma_north : Nat
  sigma_up : Nat
deriving DecidableEq, Repr

/-- Output slot for GSOF 49 (`ins_full_nav`).  The two status enums are kept
as the raw bytes the source casts. -/
structure InsFullNav where
  gps_week : Nat
  gps_time_ms : Nat
  imu_alignment_status : Nat
  gnss_status : Nat
  latitude : Nat
  longitude : Nat
  altitude : Nat
  vel_n : Nat
  vel_e : Nat
  vel_d : Nat
  speed : Nat
  roll_deg : Nat
  pitch_deg : Nat
  heading_deg : Nat
  track_angle_deg : Nat
deriving DecidableEq, Repr

/-- Output slot for GSOF 50 (`ins_rms`). -/
structure InsRms where
  gps_week : Nat
  gps_time_ms : Nat
  imu_alignment_status : Nat
  gnss_status : Nat
deriving DecidableEq, Repr

/-- Output slot for GSOF 70 (`llh_msl`). -/
structure LlhMsl where
  latitude : Nat
  longitude : Nat
  altitude_msl : Nat
deriving DecidableEq, Repr

/-- The eight output slots of the `AP_GSOF` object, grouped so that
"no Output Model slot is modified" can be stated as an equality. -/
structure Outputs where
  pos_time : PosTime
  position : Position
  vel : Velocity
  dop : Dop
  pos_sigma : PosSigma
  ins_full_nav : InsFullNav
  ins_rms : InsRms
  llh_msl : LlhMsl
deriving DecidableEq, Repr

/-- The whole `AP_GSOF` object: parser state plus output slots. -/
structure GSOF where
  msg : MsgState
  out : Outputs

/-- Reading a cell of the `uint8_t` buffer. -/
def byteAt (d : Nat → Nat) (i : Nat) : Nat := d i % 256

/-- `be16toh_ptr`: big-endian 16-bit read. -/
def be16 (d : Nat → Nat) (a : Nat) : Nat :=
  byteAt d a * 256 + byteAt d (a + 1)

/-- `be32toh_ptr` / `be32tofloat_ptr`: big-endian 32-bit read (bit pattern). -/
def be32 (d : Nat → Nat) (a : Nat) : Nat :=
  ((byteAt d a * 256 + byteAt d (a + 1)) * 256 + byteAt d (a + 2)) * 256
    + byteAt d (a + 3)

/-- `be64todouble_ptr`: big-endian 64-bit read (bit pattern). -/
def be64 (d : Nat → Nat) (a : Nat) : Nat :=
  be32 d a * 4294967296 + be32 d (a + 4)

/-- `STX` start marker. -/
def STX : Nat := 2

/-- Record-kind codes and bitset capacity.  Modelled from the spec: the enum
and the `MsgTypes` bitmask live in `AP_GSOF.h` (not among the sources); the
spec fixes that every known kind lies in `0 .. max-known-kind` and the bitset
is sized to the maximum known kind, so `msgTypesSize` is one more than the
largest code. -/
def POS_TIME : Nat := 1

/-- Record kind code of the Position record (see `POS_TIME`). -/
def POS : Nat := 2

/-- Record kind code of the Velocity record (see `POS_TIME`). -/
def VEL : Nat := 8

/-- Record kind code of the DOP record (see `POS_TIME`). -/
def DOP : Nat := 9

/-- Record kind code of the Position-Sigma record (see `POS_TIME`). -/
def POS_SIGMA : Nat := 12

/-- Record kind code of the INS full-navigation record (see `POS_TIME`). -/
def INS_FULL_NAV : Nat := 49

/-- Record kind code of the INS RMS record (see `POS_TIME`). -/
def INS_RMS : Nat := 50

/-- Record kind code of the MSL-position record (see `POS_TIME`). -/
def LLH_MSL : Nat := 70

/-- `parsed_msgs.size()`: capacity of the `MsgTypes` bitset
(see `POS_TIME`). -/
def msgTypesSize : Nat := 71

/-- `2^32`, the modulus of the source's `uint32_t` cursor arithmetic. -/
def U32 : Nat := 4294967296

/-- `AP_GSOF::parse_pos_time` (AP_GSOF.cpp:144-152): time-of-week ms as be32
at `a`, week as be32 at `a+4`, then single bytes at `a+6`, `a+7`, `a+8`. -/
def parse_pos_time (g : GSOF) (a : Nat) : GSOF :=
  { g with out := { g.out with pos_time :=
    { time_week_ms := be32 g.msg.data a
      time_week := be32 g.msg.data (a + 4)
      num_sats := byteAt g.msg.data (a + 6)
      pos_flags1 := byteAt g.msg.data (a + 7)
      pos_flags2 := byteAt g.msg.data (a + 8) } } }

/-- `AP_GSOF::parse_pos` (AP_GSOF.cpp:154-161). -/
def parse_pos (g : GSOF) (a : Nat) : GSOF :=
  { g with out := { g.out with position :=
    { latitude_rad := be64 g.msg.data a
      longitude_rad := be64 g.msg.data (a + 8)
      altitude := be64 g.msg.data (a + 16) } } }

/-- `AP_GSOF::parse_vel` (AP_GSOF.cpp:163-177).  Note: the source gates on
`vel.velocity_flags`, the previously stored field of the output slot — no
statement in the source ever assigns it from the payload. -/
def parse_vel (g : GSOF) (a : Nat) : GSOF :=
  let v0 := g.out.vel
  let v1 := if Nat.testBit v0.velocity_flags 0 then
      { v0 with horizontal_velocity := be32 g.msg.data (a + 1)
                vertical_velocity := be32 g.msg.data (a + 9) }
    else v0
  let v2 := if Nat.testBit v1.velocity_flags 2 then
      { v1 with heading := be32 g.msg.data (a + 5) }
    else v1
  { g with out := { g.out with vel := v2 } }

/-- `AP_GSOF::parse_dop` (AP_GSOF.cpp:179-184): pdop skipped, hdop at
`a+4`. -/
def parse_dop (g : GSOF) (a : Nat) : GSOF :=
  { g with out := { g.out with dop := { hdop := be32 g.msg.data (a + 4) } } }

/-- `AP_GSOF::parse_pos_sigma` (AP_GSOF.cpp:186-193). -/
def parse_pos_sigma (g : GSOF) (a : Nat) : GSOF :=
  { g with out := { g.out with pos_sigma :=
    { sigma_east := be32 g.msg.data (a + 4)
      sigma_north := be32 g.msg.data (a + 8)
      sigma_up := be32 g.msg.data (a + 16) } } }

/-- `AP_GSOF::parse_ins_full_nav` (AP_GSOF.cpp:195-214). -/
def parse_ins_full_nav (g : GSOF) (a : Nat) : GSOF :=
  { g with out := { g.out with ins_full_nav :=
    { gps_week := be16 g.msg.data a
      gps_time_ms := be32 g.msg.data (a + 2)
      imu_alignment_status := byteAt g.msg.data (a + 6)
      gnss_status := byteAt g.msg.data (a + 7)
      latitude := be64 g.msg.data (a + 8)
      longitude := be64 g.msg.data (a + 16)
      altitude := be64 g.msg.data (a + 24)
      vel_n := be32 g.msg.data (a + 32)
      vel_e := be32 g.msg.data (a + 36)
      vel_d := be32 g.msg.data (a + 40)
      speed := be32 g.msg.data (a + 44)
      roll_deg := be64 g.msg.data (a + 48)
      pitch_deg := be64 g.msg.data (a + 56)
      heading_deg := be64 g.msg.data (a + 64)
      track_angle_deg := be64 g.msg.data (a + 72) } } }

/-- `AP_GSOF::parse_ins_rms` (AP_GSOF.cpp:216-223). -/
def parse_ins_rms (g : GSOF) (a : Nat) : GSOF :=
  { g with out := { g.out with ins_rms :=
    { gps_week := be16 g.msg.data a
      gps_time_ms := be32 g.msg.data (a + 2)
      imu_alignment_status := byteAt g.msg.data (a + 6)
      gnss_status := byteAt g.msg.data (a + 7) } } }

/-- `AP_GSOF::parse_llh_msl` (AP_GSOF.cpp:225-232).  The source multiplies the
latitude and longitude patterns by `RAD_TO_DEG_DOUBLE` after the
`be64todouble_ptr` reads; the slot here stores the read pattern itself (the
scaling is a fixed function of it, and no claim mentions the numeric value of
these fields — see the module comment). -/
def parse_llh_msl (g : GSOF) (a : Nat) : GSOF :=
  { g with out := { g.out with llh_msl :=
    { latitude := be64 g.msg.data a
      longitude := be64 g.msg.data (a + 8)
      altitude_msl := be64 g.msg.data (a + 16) } } }

/-- The `switch (output_type)` of `AP_GSOF::process_message`
(AP_GSOF.cpp:104-132): route to the matching decoder, `default:` does
nothing. -/
def decodeItem (output_type : Nat) (g : GSOF) (a : Nat) : GSOF :=
  if output_type = POS_TIME then parse_pos_time g a
  else if output_type = POS then parse_pos g a
  else if output_type = VEL then parse_vel g a
  else if output_type = DOP then parse_dop g a
  else if output_type = POS_SIGMA then parse_pos_sigma g a
  else if output_type = INS_FULL_NAV then parse_ins_full_nav g a
  else if output_type = INS_RMS then parse_ins_rms g a
  else if output_type = LLH_MSL then parse_llh_msl g a
  else g

/-- The item loop of `AP_GSOF::process_message` (AP_GSOF.cpp:87-135),
`for (uint32_t a = 3; a < msg.length; a++)`, with explicit fuel (see the
module comment).  One iteration: read the kind byte at `a`; if it reaches the
bitset capacity, `return false` (production branch of the `#if`); otherwise
set its bit, read the length byte at `a+1`, run the `switch` with the value
offset `a+2`, and perform `a += output_length - 1u` followed by the loop's
`a++`, both on `uint32_t`. -/
def pmLoop (fuel : Nat) (g : GSOF) (pm : Finset Nat) (a : Nat) :
    GSOF × Finset Nat × Bool :=
  match fuel with
  | 0 => (g, pm, true)
  | fuel + 1 =>
    if a < g.msg.length then
      let output_type := byteAt g.msg.data a
      if msgTypesSize ≤ output_type then (g, pm, false)
      else
        let pm2 := insert output_type pm
        let output_length := byteAt g.msg.data (a + 1)
        let g2 := decodeItem output_type g (a + 2)
        let a2 := (((a + 2 + (output_length + (U32 - 1)) % U32) % U32) + 1) % U32
        pmLoop fuel g2 pm2 a2
    else (g, pm, true)

/-- `AP_GSOF::process_message` (AP_GSOF.cpp:81-142): iterate the items of a
GSOF (`packettype == 0x40`) payload from offset 3; any other packet type
yields no records (`return false`). -/
def process_message (g : GSOF) (pm : Finset Nat) : GSOF × Finset Nat × Bool :=
  if g.msg.packettype = 64 then pmLoop g.msg.length g pm 3
  else (g, pm, false)

/-- `AP_GSOF::parse` (AP_GSOF.cpp:26-79): one FSM step per input byte. -/
def parse (g : GSOF) (pm : Finset Nat) (temp : Nat) :
    GSOF × Finset Nat × ParseResult :=
  let t := temp % 256
  match g.msg.state with
  | PState.STARTTX =>
    if t = STX then
      ({ g with msg := { g.msg with
            state := PState.STATUS
            read := 0
            checksumcalc := 0 } }, pm, ParseResult.NO_GSOF_DATA)
    else (g, pm, ParseResult.NO_GSOF_DATA)
  | PState.STATUS =>
    ({ g with msg := { g.msg with
          status := t
          state := PState.PACKETTYPE
          checksumcalc := (g.msg.checksumcalc + t) % 256 } }, pm,
     ParseResult.NO_GSOF_DATA)
  | PState.PACKETTYPE =>
    ({ g with msg := { g.msg with
          packettype := t
          state := PState.LENGTH
          checksumcalc := (g.msg.checksumcalc + t) % 256 } }, pm,
     ParseResult.NO_GSOF_DATA)
  | PState.LENGTH =>
    ({ g with msg := { g.msg with
          length := t
          state := PState.DATA
          checksumcalc := (g.msg.checksumcalc + t) % 256 } }, pm,
     ParseResult.NO_GSOF_DATA)
  | PState.DATA =>
    let m := g.msg
    let r2 := m.read + 1
    ({ g with msg := { m with
        data := fun i => if i = m.read then t else m.data i
        read := r2
        checksumcalc := (m.checksumcalc + t) % 256
        state := if m.length ≤ r2 then PState.CHECKSUM else PState.DATA } },
     pm, ParseResult.NO_GSOF_DATA)
  | PState.CHECKSUM =>
    let g2 : GSOF :=
      { g with msg := { g.msg with checksum := t, state := PState.ENDTX } }
    if t = g2.msg.checksumcalc then
      let r := process_message g2 pm
      (r.1, r.2.1,
       if r.2.2 then ParseResult.PARSED_GSOF_DATA else ParseResult.NO_GSOF_DATA)
    else (g2, pm, ParseResult.NO_GSOF_DATA)
  | PState.ENDTX =>
    ({ g with msg := { g.msg with endtx := t, state := PState.STARTTX } },
     pm, ParseResult.NO_GSOF_DATA)

/-- Feed a list of bytes one at a time, collecting the per-byte results. -/
def feedAll (g : GSOF) (pm : Finset Nat) :
    List Nat → GSOF × Finset Nat × List ParseResult
  | [] => (g, pm, [])
  | b :: bs =>
    let r := parse g pm b
    let rest := feedAll r.1 r.2.1 bs
    (rest.1, rest.2.1, r.2.2 :: rest.2.2)

/-! ## Auxiliary definitions used by the statements and proofs -/

/-- All-zero output slots (concrete base point for witnesses). -/
def outputs0 : Outputs :=
  { pos_time := { time_week_ms := 0, time_week := 0, num_sats := 0,
                  pos_flags1 := 0, pos_flags2 := 0 }
    position := { latitude_rad := 0, longitude_rad := 0, altitude := 0 }
    vel := { velocity_flags := 0, horizontal_velocity := 0,
             vertical_velocity := 0, heading := 0 }
    dop := { hdop := 0 }
    pos_sigma := { sigma_east := 0, sigma_north := 0, sigma_up := 0 }
    ins_full_nav := { gps_week := 0, gps_time_ms := 0,
                      imu_alignment_status := 0, gnss_status := 0,
                      latitude := 0, longitude := 0, altitude := 0,
                      vel_n := 0, vel_e := 0, vel_d := 0, speed := 0,
                      roll_deg := 0, pitch_deg := 0, heading_deg := 0,
                      track_angle_deg := 0 }
    ins_rms := { gps_week := 0, gps_time_ms := 0,
                 imu_alignment_status := 0, gnss_status := 0 }
    llh_msl := { latitude := 0, longitude := 0, altitude_msl := 0 } }

/-- A concrete `MsgState` with every field zeroed and a given FSM state and
buffer. -/
def mkMsg (st : PState) (d : Nat → Nat) : MsgState :=
  { state := st, status := 0, packettype := 0, length := 0, data := d,
    read := 0, checksumcalc := 0, checksum := 0, endtx := 0 }

/-- A concrete `GSOF` value from an FSM state, a buffer and output slots. -/
def mkG (st : PState) (d : Nat → Nat) (o : Outputs) : GSOF :=
  { msg := mkMsg st d, out := o }

/-- A fresh parser in the `STARTTX` state with zeroed buffer and outputs. -/
def initG : GSOF := mkG PState.STARTTX (fun _ => 0) outputs0

/-- A buffer function holding the bytes of a list (0 beyond its end). -/
def bufOf (l : List Nat) : Nat → Nat := fun i => l.getD i 0

/-- The wire image of a list of `(kind, value)` items:
`[kind, itemLength, value bytes…]` packed contiguously. -/
def itemsBuf : List (Nat × List Nat) → List Nat
  | [] => []
  | (k, v) :: rest => k :: v.length :: (v ++ itemsBuf rest)

/-- Byte-level well-formedness of one item: kind and value bytes fit in a
byte, value length fits in the length byte. -/
def itemWF (it : Nat × List Nat) : Prop :=
  it.1 < 256 ∧ it.2.length ≤ 255 ∧ ∀ b ∈ it.2, b < 256

instance (it : Nat × List Nat) : Decidable (itemWF it) := by
  unfold itemWF; infer_instance

/-- The number of item-value bytes each decoder's fixed layout covers: the
least length that contains every offset the kind's decoder can read. -/
def declLen (k : Nat) : Nat :=
  if k = POS_TIME then 9
  else if k = POS then 24
  else if k = VEL then 13
  else if k = DOP then 8
  else if k = POS_SIGMA then 20
  else if k = INS_FULL_NAV then 80
  else if k = INS_RMS then 8
  else if k = LLH_MSL then 24
  else 0

/-- `[s, s+1, …, s+n-1]`. -/
def rangeFrom (s n : Nat) : List Nat := (List.range n).map (fun i => s + i)

/-- The value-relative offsets each decoder reads, transcribed from the reads
of `parse_pos_time` .. `parse_llh_msl`; for `VEL` the reads are gated by the
stored `velocity_flags`. -/
def readFootprint (k : Nat) (velFlags : Nat) : List Nat :=
  if k = POS_TIME then rangeFrom 0 9
  else if k = POS then rangeFrom 0 24
  else if k = VEL then
    (if Nat.testBit velFlags 0 then rangeFrom 1 4 ++ rangeFrom 9 4 else []) ++
    (if Nat.testBit velFlags 2 then rangeFrom 5 4 else [])
  else if k = DOP then rangeFrom 4 4
  else if k = POS_SIGMA then rangeFrom 4 8 ++ rangeFrom 16 4
  else if k = INS_FULL_NAV then rangeFrom 0 80
  else if k = INS_RMS then rangeFrom 0 8
  else if k = LLH_MSL then rangeFrom 0 24
  else []

/-- The kind codes the dispatch `switch` has a case for. -/
def handledKinds : List Nat :=
  [POS_TIME, POS, VEL, DOP, POS_SIGMA, INS_FULL_NAV, INS_RMS, LLH_MSL]

/-- The set of kind codes of a list of items. -/
def kindsOf (items : List (Nat × List Nat)) : Finset Nat :=
  (items.map Prod.fst).toFinset

/-- Run a decoder on an isolated item value `v` (value-relative reads only):
reference point for relating two dispatches over different buffers. -/
def decodeOnVal (k : Nat) (v : List Nat) (o : Outputs) : Outputs :=
  (decodeItem k (mkG PState.STARTTX (bufOf v) o) 0).out

/-- Item-list reformulation of the dispatch loop: walk the items, abort on an
out-of-range kind, otherwise set the bit and decode on the item value.  It is
proved to coincide with `pmLoop` on packed buffers (`pmLoop_items`). -/
def dispatchModel : List (Nat × List Nat) → Outputs → Finset Nat →
    Outputs × Finset Nat × Bool
  | [], o, pm => (o, pm, true)
  | (k, v) :: rest, o, pm =>
    if msgTypesSize ≤ k then (o, pm, false)
    else dispatchModel rest (decodeOnVal k v o) (insert k pm)

/-- The byte sequence of one whole frame around a given payload:
`STX, status, packettype, length, payload…, checksum, etx`, with the checksum
computed as the source accumulates it (8-bit sum from the status byte through
the last payload byte). -/
def frameBytes (s p etx : Nat) (payload : List Nat) : List Nat :=
  STX :: s :: p :: payload.length ::
    (payload ++ [(s + p + payload.length + payload.sum) % 256, etx])

/-! ## Helper lemmas -/

theorem decodeItem_msg (k : Nat) (g : GSOF) (a : Nat) :
    (decodeItem k g a).msg = g.msg := by
  unfold decodeItem parse_pos_time parse_pos parse_vel parse_dop
    parse_pos_sigma parse_ins_full_nav parse_ins_rms parse_llh_msl
  split_ifs <;> rfl

theorem mem_rangeFrom {s n o : Nat} : o ∈ rangeFrom s n ↔ s ≤ o ∧ o < s + n := by
  simp only [rangeFrom, List.mem_map, List.mem_range]
  constructor
  · rintro ⟨i, hi, rfl⟩
    omega
  · rintro ⟨h1, h2⟩
    exact ⟨o - s, by omega, by omega⟩

theorem footprint_lt_declLen {k f o : Nat} (h : o ∈ readFootprint k f) :
    o < declLen k := by
  unfold readFootprint at h
  unfold declLen
  split_ifs at h ⊢ <;>
    simp only [List.mem_append, mem_rangeFrom, List.not_mem_nil,
      false_or, or_false] at h <;>
    omega

theorem be16_congr {d1 d2 : Nat → Nat} {a1 a2 : Nat}
    (h : ∀ j, j < 2 → byteAt d1 (a1 + j) = byteAt d2 (a2 + j)) :
    be16 d1 a1 = be16 d2 a2 := by
  have h0 := h 0 (by omega)
  have h1 := h 1 (by omega)
  simp only [Nat.add_zero] at h0
  rw [be16, be16, h0, h1]

theorem be32_congr {d1 d2 : Nat → Nat} {a1 a2 : Nat}
    (h : ∀ j, j < 4 → byteAt d1 (a1 + j) = byteAt d2 (a2 + j)) :
    be32 d1 a1 = be32 d2 a2 := by
  have h0 := h 0 (by omega)
  have h1 := h 1 (by omega)
  have h2 := h 2 (by omega)
  have h3 := h 3 (by omega)
  simp only [Nat.add_zero] at h0
  rw [be32, be32, h0, h1, h2, h3]

theorem be64_congr {d1 d2 : Nat → Nat} {a1 a2 : Nat}
    (h : ∀ j, j < 8 → byteAt d1 (a1 + j) = byteAt d2 (a2 + j)) :
    be64 d1 a1 = be64 d2 a2 := by
  have g1 : be32 d1 a1 = be32 d2 a2 := be32_congr (fun j hj => h j (by omega))
  have g2 : be32 d1 (a1 + 4) = be32 d2 (a2 + 4) := by
    apply be32_congr
    intro j hj
    have hh := h (4 + j) (by omega)
    have e1 : a1 + (4 + j) = a1 + 4 + j := by omega
    have e2 : a2 + (4 + j) = a2 + 4 + j := by omega
    rw [e1, e2] at hh
    exact hh
  rw [be64, be64, g1, g2]

theorem byteAt_shiftP {d1 d2 : Nat → Nat} {a1 a2 : Nat} {P : Nat → Prop}
    (h : ∀ o, P o → byteAt d1 (a1 + o) = byteAt d2 (a2 + o))
    (s : Nat) (hs : P s) :
    byteAt d1 (a1 + s) = byteAt d2 (a2 + s) := h s hs

theorem be16_shiftP {d1 d2 : Nat → Nat} {a1 a2 : Nat} {P : Nat → Prop}
    (h : ∀ o, P o → byteAt d1 (a1 + o) = byteAt d2 (a2 + o))
    (s : Nat) (hs : ∀ j, j < 2 → P (s + j)) :
    be16 d1 (a1 + s) = be16 d2 (a2 + s) := by
  apply be16_congr
  intro j hj
  have hh := h (s + j) (hs j hj)
  have e1 : a1 + (s + j) = a1 + s + j := by omega
  have e2 : a2 + (s + j) = a2 + s + j := by omega
  rw [e1, e2] at hh
  exact hh

theorem be32_shiftP {d1 d2 : Nat → Nat} {a1 a2 : Nat} {P : Nat → Prop}
    (h : ∀ o, P o → byteAt d1 (a1 + o) = byteAt d2 (a2 + o))
    (s : Nat) (hs : ∀ j, j < 4 → P (s + j)) :
    be32 d1 (a1 + s) = be32 d2 (a2 + s) := by
  apply be32_congr
  intro j hj
  have hh := h (s + j) (hs j hj)
  have e1 : a1 + (s + j) = a1 + s + j := by omega
  have e2 : a2 + (s + j) = a2 + s + j := by omega
  rw [e1, e2] at hh
  exact hh

theorem be64_shiftP {d1 d2 : Nat → Nat} {a1 a2 : Nat} {P : Nat → Prop}
    (h : ∀ o, P o → byteAt d1 (a1 + o) = byteAt d2 (a2 + o))
    (s : Nat) (hs : ∀ j, j < 8 → P (s + j)) :
    be64 d1 (a1 + s) = be64 d2 (a2 + s) := by
  apply be64_congr
  intro j hj
  have hh := h (s + j) (hs j hj)
  have e1 : a1 + (s + j) = a1 + s + j := by omega
  have e2 : a2 + (s + j) = a2 + s + j := by omega
  rw [e1, e2] at hh
  exact hh

theorem decodeItem_unhandled {k : Nat} (hk : k ∉ handledKinds) (g : GSOF)
    (a : Nat) : decodeItem k g a = g := by
  simp only [handledKinds, List.mem_cons, List.not_mem_nil, or_false,
    not_or] at hk
  obtain ⟨h1, h2, h3, h4, h5, h6, h7, h8⟩ := hk
  simp [decodeItem, h1, h2, h3, h4, h5, h6, h7, h8]

/-- Two decoder runs agree whenever the incoming outputs agree and the two
buffers agree (at the respective value base offsets) on every offset of the
kind's read footprint. -/
theorem decodeItem_congr {k a1 a2 : Nat} {g1 g2 : GSOF}
    (ho : g1.out = g2.out)
    (hd : ∀ o, o ∈ readFootprint k g1.out.vel.velocity_flags →
      byteAt g1.msg.data (a1 + o) = byteAt g2.msg.data (a2 + o)) :
    (decodeItem k g1 a1).out = (decodeItem k g2 a2).out := by
  by_cases h1 : k = POS_TIME
  · subst h1
    rw [show readFootprint POS_TIME g1.out.vel.velocity_flags =
      rangeFrom 0 9 from rfl] at hd
    have e1 := be32_shiftP hd 0 (fun j hj => mem_rangeFrom.mpr (by omega))
    have e2 := be32_shiftP hd 4 (fun j hj => mem_rangeFrom.mpr (by omega))
    have e3 := hd 6 (mem_rangeFrom.mpr (by omega))
    have e4 := hd 7 (mem_rangeFrom.mpr (by omega))
    have e5 := hd 8 (mem_rangeFrom.mpr (by omega))
    simp only [Nat.add_zero] at e1
    show (parse_pos_time g1 a1).out = (parse_pos_time g2 a2).out
    simp only [parse_pos_time]
    rw [ho, e1, e2, e3, e4, e5]
  by_cases h2 : k = POS
  · subst h2
    rw [show readFootprint POS g1.out.vel.velocity_flags =
      rangeFrom 0 24 from rfl] at hd
    have e1 := be64_shiftP hd 0 (fun j hj => mem_rangeFrom.mpr (by omega))
    have e2 := be64_shiftP hd 8 (fun j hj => mem_rangeFrom.mpr (by omega))
    have e3 := be64_shiftP hd 16 (fun j hj => mem_rangeFrom.mpr (by omega))
    simp only [Nat.add_zero] at e1
    show (parse_pos g1 a1).out = (parse_pos g2 a2).out
    simp only [parse_pos]
    rw [ho, e1, e2, e3]
  by_cases h3 : k = VEL
  · subst h3
    rw [show readFootprint VEL g1.out.vel.velocity_flags =
      (if Nat.testBit g1.out.vel.velocity_flags 0 then
        rangeFrom 1 4 ++ rangeFrom 9 4 else []) ++
      (if Nat.testBit g1.out.vel.velocity_flags 2 then
        rangeFrom 5 4 else []) from rfl] at hd
    show (parse_vel g1 a1).out = (parse_vel g2 a2).out
    simp only [parse_vel]
    rw [← ho]
    cases hb0 : Nat.testBit g1.out.vel.velocity_flags 0 <;>
      cases hb2 : Nat.testBit g1.out.vel.velocity_flags 2
    · simp [hb0, hb2]
    · have e3 := be32_shiftP hd 5 (fun j hj => by
        simp only [hb0, hb2, Bool.false_eq_true, if_false, if_true,
          List.nil_append, List.mem_append, mem_rangeFrom]
        omega)
      simp [hb0, hb2, e3]
    · have e1 := be32_shiftP hd 1 (fun j hj => by
        simp only [hb0, hb2, Bool.false_eq_true, if_false, if_true,
          List.append_nil, List.mem_append, mem_rangeFrom]
        omega)
      have e2 := be32_shiftP hd 9 (fun j hj => by
        simp only [hb0, hb2, Bool.false_eq_true, if_false, if_true,
          List.append_nil, List.mem_append, mem_rangeFrom]
        omega)
      simp [hb0, hb2, e1, e2]
    · have e1 := be32_shiftP hd 1 (fun j hj => by
        simp only [hb0, hb2, if_true, List.mem_append, mem_rangeFrom]
        omega)
      have e2 := be32_shiftP hd 9 (fun j hj => by
        simp only [hb0, hb2, if_true, List.mem_append, mem_rangeFrom]
        omega)
      have e3 := be32_shiftP hd 5 (fun j hj => by
        simp only [hb0, hb2, if_true, List.mem_append, mem_rangeFrom]
        omega)
      simp [hb0, hb2, e1, e2, e3]
  by_cases h4 : k = DOP
  · subst h4
    rw [show readFootprint DOP g1.out.vel.velocity_flags =
      rangeFrom 4 4 from rfl] at hd
    have e1 := be32_shiftP hd 4 (fun j hj => mem_rangeFrom.mpr (by omega))
    show (parse_dop g1 a1).out = (parse_dop g2 a2).out
    simp only [parse_dop]
    rw [ho, e1]
  by_cases h5 : k = POS_SIGMA
  · subst h5
    rw [show readFootprint POS_SIGMA g1.out.vel.velocity_flags =
      rangeFrom 4 8 ++ rangeFrom 16 4 from rfl] at hd
    have e1 := be32_shiftP hd 4 (fun j hj => List.mem_append.mpr
      (Or.inl (mem_rangeFrom.mpr (by omega))))
    have e2 := be32_shiftP hd 8 (fun j hj => List.mem_append.mpr
      (Or.inl (mem_rangeFrom.mpr (by omega))))
    have e3 := be32_shiftP hd 16 (fun j hj => List.mem_append.mpr
      (Or.inr (mem_rangeFrom.mpr (by omega))))
    show (parse_pos_sigma g1 a1).out = (parse_pos_sigma g2 a2).out
    simp only [parse_pos_sigma]
    rw [ho, e1, e2, e3]
  by_cases h6 : k = INS_FULL_NAV
  · subst h6
    rw [show readFootprint INS_FULL_NAV g1.out.vel.velocity_flags =
      rangeFrom 0 80 from rfl] at hd
    have e1 := be16_shiftP hd 0 (fun j hj => mem_rangeFrom.mpr (by omega))
    have e2 := be32_shiftP hd 2 (fun j hj => mem_rangeFrom.mpr (by omega))
    have e3 := hd 6 (mem_rangeFrom.mpr (by omega))
    have e4 := hd 7 (mem_rangeFrom.mpr (by omega))
    have e5 := be64_shiftP hd 8 (fun j hj => mem_rangeFrom.mpr (by omega))
    have e6 := be64_shiftP hd 16 (fun j hj => mem_rangeFrom.mpr (by omega))
    have e7 := be64_shiftP hd 24 (fun j hj => mem_rangeFrom.mpr (by omega))
    have e8 := be32_shiftP hd 32 (fun j hj => mem_rangeFrom.mpr (by omega))
    have e9 := be32_shiftP hd 36 (fun j hj => mem_rangeFrom.mpr (by omega))
    have e10 := be32_shiftP hd 40 (fun j hj => mem_rangeFrom.mpr (by omega))
    have e11 := be32_shiftP hd 44 (fun j hj => mem_rangeFrom.mpr (by omega))
    have e12 := be64_shiftP hd 48 (fun j hj => mem_rangeFrom.mpr (by omega))
    have e13 := be64_shiftP hd 56 (fun j hj => mem_rangeFrom.mpr (by omega))
    have e14 := be64_shiftP hd 64 (fun j hj => mem_rangeFrom.mpr (by omega))
    have e15 := be64_shiftP hd 72 (fun j hj => mem_rangeFrom.mpr (by omega))
    simp only [Nat.add_zero] at e1
    show (parse_ins_full_nav g1 a1).out = (parse_ins_full_nav g2 a2).out
    simp only [parse_ins_full_nav]
    rw [ho, e1, e2, e3, e4, e5, e6, e7, e8, e9, e10, e11, e12, e13, e14, e15]
  by_cases h7 : k = INS_RMS
  · subst h7
    rw [show readFootprint INS_RMS g1.out.vel.velocity_flags =
      rangeFrom 0 8 from rfl] at hd
    have e1 := be16_shiftP hd 0 (fun j hj => mem_rangeFrom.mpr (by omega))
    have e2 := be32_shiftP hd 2 (fun j hj => mem_rangeFrom.mpr (by omega))
    have e3 := hd 6 (mem_rangeFrom.mpr (by omega))
    have e4 := hd 7 (mem_rangeFrom.mpr (by omega))
    simp only [Nat.add_zero] at e1
    show (parse_ins_rms g1 a1).out = (parse_ins_rms g2 a2).out
    simp only [parse_ins_rms]
    rw [ho, e1, e2, e3, e4]
  by_cases h8 : k = LLH_MSL
  · subst h8
    rw [show readFootprint LLH_MSL g1.out.vel.velocity_flags =
      rangeFrom 0 24 from rfl] at hd
    have e1 := be64_shiftP hd 0 (fun j hj => mem_rangeFrom.mpr (by omega))
    have e2 := be64_shiftP hd 8 (fun j hj => mem_rangeFrom.mpr (by omega))
    have e3 := be64_shiftP hd 16 (fun j hj => mem_rangeFrom.mpr (by omega))
    simp only [Nat.add_zero] at e1
    show (parse_llh_msl g1 a1).out = (parse_llh_msl g2 a2).out
    simp only [parse_llh_msl]
    rw [ho, e1, e2, e3]
  have hk : k ∉ handledKinds := by
    simp [handledKinds, h1, h2, h3, h4, h5, h6, h7, h8]
  rw [decodeItem_unhandled hk g1 a1, decodeItem_unhandled hk g2 a2]
  exact ho

/-! ## The dispatch loop on packed item buffers -/

/-- The buffer `d` holds the bytes of `l` starting at absolute offset `a`
(`byteAt` already reduces the cell mod 256; the lists used here carry byte
values, so no reduction is applied on the list side). -/
def bufMatches (d : Nat → Nat) (a : Nat) (l : List Nat) : Prop :=
  ∀ i, i < l.length → byteAt d (a + i) = l.getD i 0

instance (d : Nat → Nat) (a : Nat) (l : List Nat) :
    Decidable (bufMatches d a l) := by
  unfold bufMatches
  infer_instance

theorem pmLoop_zero (g : GSOF) (pm : Finset Nat) (a : Nat) :
    pmLoop 0 g pm a = (g, pm, true) := rfl

theorem pmLoop_succ (f : Nat) (g : GSOF) (pm : Finset Nat) (a : Nat) :
    pmLoop (f + 1) g pm a =
      if a < g.msg.length then
        if msgTypesSize ≤ byteAt g.msg.data a then (g, pm, false)
        else
          pmLoop f (decodeItem (byteAt g.msg.data a) g (a + 2))
            (insert (byteAt g.msg.data a) pm)
            ((((a + 2 + (byteAt g.msg.data (a + 1) + (U32 - 1)) % U32) % U32)
              + 1) % U32)
      else (g, pm, true) := rfl

theorem itemsBuf_cons (k : Nat) (v : List Nat)
    (rest : List (Nat × List Nat)) :
    itemsBuf ((k, v) :: rest) = k :: v.length :: (v ++ itemsBuf rest) := rfl

theorem itemsBuf_cons_length (k : Nat) (v : List Nat)
    (rest : List (Nat × List Nat)) :
    (itemsBuf ((k, v) :: rest)).length =
      2 + v.length + (itemsBuf rest).length := by
  simp only [itemsBuf_cons, List.length_cons, List.length_append]
  omega

theorem kindsOf_cons (k : Nat) (v : List Nat) (rest : List (Nat × List Nat)) :
    kindsOf ((k, v) :: rest) = insert k (kindsOf rest) := by
  simp [kindsOf]

/-- The cursor update `a += output_length - 1u; a++` on `uint32_t` nets to
`a + 2 + L` whenever the result does not reach `2^32`. -/
theorem cursor_advance {a L : Nat} (hL : L ≤ 255)
    (ha : a + 2 + L < U32) :
    (((a + 2 + (L + (U32 - 1)) % U32) % U32) + 1) % U32 = a + 2 + L := by
  simp only [U32] at ha ⊢
  omega

/-- One dispatch-loop iteration on a buffer that carries a well-formed item
at the cursor: the bit is set, the item decoded, and the cursor lands on the
next item (`a + 2 + v.length`). -/
theorem pmLoop_succ_item {f a : Nat} {g : GSOF} {pm : Finset Nat}
    {k : Nat} {v : List Nat}
    (hv : v.length ≤ 255)
    (hb0 : byteAt g.msg.data a = k)
    (hb1 : byteAt g.msg.data (a + 1) = v.length)
    (hlt : a < g.msg.length)
    (hk71 : ¬ msgTypesSize ≤ k)
    (ha : a + 2 + v.length < U32) :
    pmLoop (f + 1) g pm a =
      pmLoop f (decodeItem k g (a + 2)) (insert k pm) (a + 2 + v.length) := by
  rw [pmLoop_succ, if_pos hlt, hb0, hb1, if_neg hk71,
    cursor_advance hv ha]

/-- Peeling one item off a matching buffer: the buffer from `a + 2 + v.length`
matches the remaining items. -/
theorem bufMatches_tail {d : Nat → Nat} {a : Nat} {k : Nat} {v : List Nat}
    {rest : List (Nat × List Nat)}
    (hbuf : bufMatches d a (itemsBuf ((k, v) :: rest))) :
    bufMatches d (a + 2 + v.length) (itemsBuf rest) := by
  intro i hi
  have h := hbuf (2 + v.length + i) (by
    rw [itemsBuf_cons_length]; omega)
  rw [show a + (2 + v.length + i) = a + 2 + v.length + i from by omega] at h
  rw [h, itemsBuf_cons]
  rw [show (2 + v.length + i) = (v.length + i) + 1 + 1 from by omega]
  rw [List.getD_cons_succ, List.getD_cons_succ,
    List.getD_append_right v (itemsBuf rest) 0 (v.length + i) (by omega)]
  congr 1
  omega

/-- The kind and length bytes of the item at the cursor. -/
theorem bufMatches_head {d : Nat → Nat} {a : Nat} {k : Nat} {v : List Nat}
    {rest : List (Nat × List Nat)}
    (hbuf : bufMatches d a (itemsBuf ((k, v) :: rest))) :
    byteAt d a = k ∧ byteAt d (a + 1) = v.length := by
  have h0 := hbuf 0 (by rw [itemsBuf_cons_length]; omega)
  have h1 := hbuf 1 (by rw [itemsBuf_cons_length]; omega)
  rw [Nat.add_zero] at h0
  rw [itemsBuf_cons] at h0 h1
  exact ⟨h0, h1⟩

/-- The value bytes of the item at the cursor. -/
theorem bufMatches_value {d : Nat → Nat} {a : Nat} {k : Nat} {v : List Nat}
    {rest : List (Nat × List Nat)}
    (hbuf : bufMatches d a (itemsBuf ((k, v) :: rest)))
    {o : Nat} (ho : o < v.length) :
    byteAt d (a + 2 + o) = v.getD o 0 := by
  have h := hbuf (2 + o) (by rw [itemsBuf_cons_length]; omega)
  rw [show a + (2 + o) = a + 2 + o from by omega] at h
  rw [h, itemsBuf_cons]
  rw [show (2 + o) = o + 1 + 1 from by omega]
  rw [List.getD_cons_succ, List.getD_cons_succ,
    List.getD_append v (itemsBuf rest) 0 o ho]

/-- Decoding the item at the cursor coincides with decoding on the isolated
item value, provided the declared length covers the decoder's footprint. -/
theorem decode_at_cursor {g : GSOF} {a k : Nat} {v : List Nat}
    {rest : List (Nat × List Nat)}
    (hbuf : bufMatches g.msg.data a (itemsBuf ((k, v) :: rest)))
    (hvb : ∀ b ∈ v, b < 256)
    (hcont : declLen k ≤ v.length) :
    (decodeItem k g (a + 2)).out = decodeOnVal k v g.out := by
  unfold decodeOnVal
  have ho : g.out = (mkG PState.STARTTX (bufOf v) g.out).out := rfl
  apply decodeItem_congr ho
  intro o hmem
  have holt : o < v.length :=
    Nat.lt_of_lt_of_le (footprint_lt_declLen hmem) hcont
  have h1 : byteAt g.msg.data (a + 2 + o) = v.getD o 0 :=
    bufMatches_value hbuf holt
  have h2 : byteAt (bufOf v) (0 + o) = v.getD o 0 := by
    rw [Nat.zero_add]
    unfold byteAt bufOf
    have : v.getD o 0 < 256 := by
      rw [List.getD_eq_getElem v 0 holt]
      exact hvb _ (List.getElem_mem holt)
    omega
  have h3 : byteAt (mkG PState.STARTTX (bufOf v) g.out).msg.data (0 + o) =
      byteAt (bufOf v) (0 + o) := rfl
  rw [h1, h3, h2]

/-- `pmLoop` on a buffer packed with items computes `dispatchModel` on the
item list: same outputs, same bitset, same success flag.  Needs every item to
fit its decoder footprint (`declLen`). -/
theorem pmLoop_items (items : List (Nat × List Nat)) :
    ∀ (fuel : Nat) (g : GSOF) (pm : Finset Nat) (a : Nat),
      (∀ it ∈ items, itemWF it) →
      (∀ it ∈ items, declLen it.1 ≤ it.2.length) →
      bufMatches g.msg.data a (itemsBuf items) →
      g.msg.length = a + (itemsBuf items).length →
      items.length ≤ fuel →
      a + (itemsBuf items).length < U32 →
      (pmLoop fuel g pm a).1.out = (dispatchModel items g.out pm).1 ∧
      (pmLoop fuel g pm a).2 = (dispatchModel items g.out pm).2 := by
  induction items with
  | nil =>
    intro fuel g pm a _ _ _ hlen _ _
    have hnlt : ¬ a < g.msg.length := by
      simp only [itemsBuf, List.length_nil] at hlen
      omega
    cases fuel with
    | zero => exact ⟨rfl, rfl⟩
    | succ f =>
      rw [pmLoop_succ, if_neg hnlt]
      exact ⟨rfl, rfl⟩
  | cons it rest ih =>
    intro fuel g pm a hwf hcont hbuf hlen hfuel ha
    obtain ⟨k, v⟩ := it
    obtain ⟨hb0, hb1⟩ := bufMatches_head hbuf
    have hwf0 := hwf (k, v) (List.mem_cons_self _ _)
    have hk256 : k < 256 := hwf0.1
    have hv255 : v.length ≤ 255 := hwf0.2.1
    have hbl := itemsBuf_cons_length k v rest
    cases fuel with
    | zero => simp at hfuel
    | succ f =>
      have hlt : a < g.msg.length := by omega
      by_cases hk71 : msgTypesSize ≤ k
      · rw [pmLoop_succ, if_pos hlt, hb0, if_pos hk71]
        unfold dispatchModel
        rw [if_pos hk71]
        exact ⟨rfl, rfl⟩
      · rw [pmLoop_succ_item hv255 hb0 hb1 hlt hk71 (by omega)]
        have hdec : (decodeItem k g (a + 2)).out = decodeOnVal k v g.out :=
          decode_at_cursor hbuf hwf0.2.2 (hcont (k, v) (List.mem_cons_self _ _))
        have hmsg := decodeItem_msg k g (a + 2)
        have hrec := ih f (decodeItem k g (a + 2)) (insert k pm)
          (a + 2 + v.length)
          (fun x hx => hwf x (List.mem_cons_of_mem _ hx))
          (fun x hx => hcont x (List.mem_cons_of_mem _ hx))
          (by rw [hmsg]; exact bufMatches_tail hbuf)
          (by rw [hmsg, hlen]; omega)
          (by simp at hfuel; omega)
          (by omega)
        rw [hdec] at hrec
        unfold dispatchModel
        rw [if_neg hk71]
        exact hrec

/-- `pmLoop` on a buffer packed with items all of whose kinds are in range:
it succeeds and adds exactly the kinds present to the bitset, leaving the
parser bookkeeping untouched (no footprint condition needed — the bitset does
not depend on the decoded values). -/
theorem pmLoop_bits (items : List (Nat × List Nat)) :
    ∀ (fuel : Nat) (g : GSOF) (pm : Finset Nat) (a : Nat),
      (∀ it ∈ items, itemWF it) →
      (∀ it ∈ items, it.1 < msgTypesSize) →
      bufMatches g.msg.data a (itemsBuf items) →
      g.msg.length = a + (itemsBuf items).length →
      items.length ≤ fuel →
      a + (itemsBuf items).length < U32 →
      ∃ g2, pmLoop fuel g pm a = (g2, pm ∪ kindsOf items, true) ∧
        g2.msg = g.msg := by
  induction items with
  | nil =>
    intro fuel g pm a _ _ _ hlen _ _
    have hnlt : ¬ a < g.msg.length := by
      simp only [itemsBuf, List.length_nil] at hlen
      omega
    refine ⟨g, ?_, rfl⟩
    have hpm : pm ∪ kindsOf [] = pm := by
      simp [kindsOf]
    rw [hpm]
    cases fuel with
    | zero => rfl
    | succ f => rw [pmLoop_succ, if_neg hnlt]
  | cons it rest ih =>
    intro fuel g pm a hwf hkr hbuf hlen hfuel ha
    obtain ⟨k, v⟩ := it
    obtain ⟨hb0, hb1⟩ := bufMatches_head hbuf
    have hwf0 := hwf (k, v) (List.mem_cons_self _ _)
    have hv255 : v.length ≤ 255 := hwf0.2.1
    have hbl := itemsBuf_cons_length k v rest
    cases fuel with
    | zero => simp at hfuel
    | succ f =>
      have hlt : a < g.msg.length := by omega
      have hk71 : ¬ msgTypesSize ≤ k :=
        not_le.mpr (hkr (k, v) (List.mem_cons_self _ _))
      rw [pmLoop_succ_item hv255 hb0 hb1 hlt hk71 (by omega)]
      have hmsg := decodeItem_msg k g (a + 2)
      obtain ⟨g2, hg2, hg2msg⟩ := ih f (decodeItem k g (a + 2)) (insert k pm)
        (a + 2 + v.length)
        (fun x hx => hwf x (List.mem_cons_of_mem _ hx))
        (fun x hx => hkr x (List.mem_cons_of_mem _ hx))
        (by rw [hmsg]; exact bufMatches_tail hbuf)
        (by rw [hmsg, hlen]; omega)
        (by simp at hfuel; omega)
        (by omega)
      refine ⟨g2, ?_, by rw [hg2msg, hmsg]⟩
      rw [hg2, kindsOf_cons]
      have : insert k pm ∪ kindsOf rest = pm ∪ insert k (kindsOf rest) := by
        ext x
        simp only [Finset.mem_union, Finset.mem_insert]
        tauto
      rw [this]

/-! ## dispatchModel facts -/

theorem decodeOnVal_unhandled {k : Nat} (hk : k ∉ handledKinds)
    (v : List Nat) (o : Outputs) : decodeOnVal k v o = o := by
  unfold decodeOnVal
  rw [decodeItem_unhandled hk]
  rfl

theorem dispatchModel_nil (o : Outputs) (pm : Finset Nat) :
    dispatchModel [] o pm = (o, pm, true) := rfl

theorem dispatchModel_cons (k : Nat) (v : List Nat)
    (rest : List (Nat × List Nat)) (o : Outputs) (pm : Finset Nat) :
    dispatchModel ((k, v) :: rest) o pm =
      if msgTypesSize ≤ k then (o, pm, false)
      else dispatchModel rest (decodeOnVal k v o) (insert k pm) := rfl

/-- The bitset is write-only for the dispatcher: starting from
`insert x pm` instead of `pm` inserts `x` into the result and changes
nothing else. -/
theorem dispatchModel_insert (items : List (Nat × List Nat)) :
    ∀ (o : Outputs) (pm : Finset Nat) (x : Nat),
      (dispatchModel items o (insert x pm)).1 =
        (dispatchModel items o pm).1 ∧
      (dispatchModel items o (insert x pm)).2.1 =
        insert x (dispatchModel items o pm).2.1 ∧
      (dispatchModel items o (insert x pm)).2.2 =
        (dispatchModel items o pm).2.2 := by
  induction items with
  | nil => intro o pm x; exact ⟨rfl, rfl, rfl⟩
  | cons it rest ih =>
    intro o pm x
    obtain ⟨k, v⟩ := it
    rw [dispatchModel_cons, dispatchModel_cons]
    by_cases hk : msgTypesSize ≤ k
    · rw [if_pos hk, if_pos hk]
      exact ⟨rfl, rfl, rfl⟩
    · rw [if_neg hk, if_neg hk, Finset.Insert.comm]
      exact ih (decodeOnVal k v o) (insert k pm) x

/-- When every kind is in range the dispatcher succeeds and the final bitset
is the initial one united with the kinds present. -/
theorem dispatchModel_inrange (items : List (Nat × List Nat)) :
    ∀ (o : Outputs) (pm : Finset Nat),
      (∀ it ∈ items, it.1 < msgTypesSize) →
      (dispatchModel items o pm).2.1 = pm ∪ kindsOf items ∧
      (dispatchModel items o pm).2.2 = true := by
  induction items with
  | nil =>
    intro o pm _
    constructor
    · show pm = pm ∪ kindsOf []
      simp [kindsOf]
    · rfl
  | cons it rest ih =>
    intro o pm hkr
    obtain ⟨k, v⟩ := it
    rw [dispatchModel_cons,
      if_neg (not_le.mpr (hkr (k, v) (List.mem_cons_self _ _)))]
    obtain ⟨h1, h2⟩ := ih (decodeOnVal k v o) (insert k pm)
      (fun x hx => hkr x (List.mem_cons_of_mem _ hx))
    refine ⟨?_, h2⟩
    rw [h1, kindsOf_cons]
    ext x
    simp only [Finset.mem_union, Finset.mem_insert]
    tauto

/-- Dropping an in-range item whose kind has no decoder case from the middle
of the item list leaves the dispatched outputs and the success flag
unchanged and only adds its kind to the bitset. -/
theorem dispatchModel_skip (pre : List (Nat × List Nat)) :
    ∀ (post : List (Nat × List Nat)) (k : Nat) (v : List Nat)
      (o : Outputs) (pm : Finset Nat),
      (∀ it ∈ pre, it.1 < msgTypesSize) →
      k < msgTypesSize → k ∉ handledKinds →
      (dispatchModel (pre ++ (k, v) :: post) o pm).1 =
        (dispatchModel (pre ++ post) o pm).1 ∧
      (dispatchModel (pre ++ (k, v) :: post) o pm).2.1 =
        insert k (dispatchModel (pre ++ post) o pm).2.1 ∧
      (dispatchModel (pre ++ (k, v) :: post) o pm).2.2 =
        (dispatchModel (pre ++ post) o pm).2.2 := by
  induction pre with
  | nil =>
    intro post k v o pm _ hk hkh
    simp only [List.nil_append]
    rw [dispatchModel_cons, if_neg (not_le.mpr hk),
      decodeOnVal_unhandled hkh]
    exact dispatchModel_insert post o pm k
  | cons it pre ih =>
    intro post k v o pm hpre hk hkh
    obtain ⟨k1, v1⟩ := it
    have hk1 : ¬ msgTypesSize ≤ k1 :=
      not_le.mpr (hpre (k1, v1) (List.mem_cons_self _ _))
    simp only [List.cons_append]
    rw [dispatchModel_cons, dispatchModel_cons, if_neg hk1, if_neg hk1]
    exact ih post k v (decodeOnVal k1 v1 o) (insert k1 pm)
      (fun x hx => hpre x (List.mem_cons_of_mem _ hx)) hk hkh

/-! ## Single-byte step lemmas for the FSM -/

theorem parse_stx {g : GSOF} {pm : Finset Nat}
    (h : g.msg.state = PState.STARTTX) :
    parse g pm 2 =
      ({ g with msg := { g.msg with
          state := PState.STATUS
          read := 0
          checksumcalc := 0 } }, pm, ParseResult.NO_GSOF_DATA) := by
  unfold parse
  rw [h]
  rfl

theorem parse_status {g : GSOF} {pm : Finset Nat} (t : Nat)
    (h : g.msg.state = PState.STATUS) :
    parse g pm t =
      ({ g with msg := { g.msg with
          status := t % 256
          state := PState.PACKETTYPE
          checksumcalc := (g.msg.checksumcalc + t % 256) % 256 } }, pm,
       ParseResult.NO_GSOF_DATA) := by
  unfold parse
  rw [h]

theorem parse_packettype {g : GSOF} {pm : Finset Nat} (t : Nat)
    (h : g.msg.state = PState.PACKETTYPE) :
    parse g pm t =
      ({ g with msg := { g.msg with
          packettype := t % 256
          state := PState.LENGTH
          checksumcalc := (g.msg.checksumcalc + t % 256) % 256 } }, pm,
       ParseResult.NO_GSOF_DATA) := by
  unfold parse
  rw [h]

theorem parse_length {g : GSOF} {pm : Finset Nat} (t : Nat)
    (h : g.msg.state = PState.LENGTH) :
    parse g pm t =
      ({ g with msg := { g.msg with
          length := t % 256
          state := PState.DATA
          checksumcalc := (g.msg.checksumcalc + t % 256) % 256 } }, pm,
       ParseResult.NO_GSOF_DATA) := by
  unfold parse
  rw [h]

theorem parse_data {g : GSOF} {pm : Finset Nat} (t : Nat)
    (h : g.msg.state = PState.DATA) :
    parse g pm t =
      ({ g with msg := { g.msg with
          data := fun i => if i = g.msg.read then t % 256 else g.msg.data i
          read := g.msg.read + 1
          checksumcalc := (g.msg.checksumcalc + t % 256) % 256
          state := if g.msg.length ≤ g.msg.read + 1 then PState.CHECKSUM
            else PState.DATA } }, pm, ParseResult.NO_GSOF_DATA) := by
  unfold parse
  rw [h]

theorem parse_checksum_match {g : GSOF} {pm : Finset Nat} {t : Nat}
    (h : g.msg.state = PState.CHECKSUM) (hm : t % 256 = g.msg.checksumcalc) :
    parse g pm t =
      ((process_message
          { g with msg := { g.msg with
              checksum := t % 256
              state := PState.ENDTX } } pm).1,
       (process_message
          { g with msg := { g.msg with
              checksum := t % 256
              state := PState.ENDTX } } pm).2.1,
       if (process_message
          { g with msg := { g.msg with
              checksum := t % 256
              state := PState.ENDTX } } pm).2.2
         then ParseResult.PARSED_GSOF_DATA
         else ParseResult.NO_GSOF_DATA) := by
  unfold parse
  rw [h]
  dsimp only
  rw [if_pos hm]

theorem parse_checksum_mismatch {g : GSOF} {pm : Finset Nat} {t : Nat}
    (h : g.msg.state = PState.CHECKSUM)
    (hm : ¬ t % 256 = g.msg.checksumcalc) :
    parse g pm t =
      ({ g with msg := { g.msg with
          checksum := t % 256
          state := PState.ENDTX } }, pm, ParseResult.NO_GSOF_DATA) := by
  unfold parse
  rw [h]
  dsimp only
  rw [if_neg hm]

theorem parse_endtx {g : GSOF} {pm : Finset Nat} (t : Nat)
    (h : g.msg.state = PState.ENDTX) :
    parse g pm t =
      ({ g with msg := { g.msg with
          endtx := t % 256
          state := PState.STARTTX } }, pm, ParseResult.NO_GSOF_DATA) := by
  unfold parse
  rw [h]

theorem feedAll_nil (g : GSOF) (pm : Finset Nat) :
    feedAll g pm [] = (g, pm, []) := rfl

theorem feedAll_cons (g : GSOF) (pm : Finset Nat) (b : Nat) (bs : List Nat) :
    feedAll g pm (b :: bs) =
      ((feedAll (parse g pm b).1 (parse g pm b).2.1 bs).1,
       (feedAll (parse g pm b).1 (parse g pm b).2.1 bs).2.1,
       (parse g pm b).2.2 ::
         (feedAll (parse g pm b).1 (parse g pm b).2.1 bs).2.2) := rfl

/-- Feeding the payload bytes: from the `DATA` state with `read + |bs| =
length`, every byte yields `NO_GSOF_DATA`; the last byte moves the FSM to
`CHECKSUM`; the buffer receives the bytes (reduced mod 256) at offsets
`read ..`, the checksum accumulates their sum, and the outputs, bitset,
packet type and length are untouched. -/
theorem feed_data (bs : List Nat) :
    ∀ (g : GSOF) (pm : Finset Nat),
      g.msg.state = PState.DATA →
      g.msg.read + bs.length = g.msg.length →
      bs ≠ [] →
      ∃ gf, feedAll g pm bs =
          (gf, pm, List.replicate bs.length ParseResult.NO_GSOF_DATA) ∧
        gf.msg.state = PState.CHECKSUM ∧
        gf.msg.length = g.msg.length ∧
        gf.msg.packettype = g.msg.packettype ∧
        gf.msg.checksumcalc = (g.msg.checksumcalc + bs.sum) % 256 ∧
        gf.out = g.out ∧
        (∀ i, i < g.msg.read → gf.msg.data i = g.msg.data i) ∧
        (∀ j, j < bs.length →
          gf.msg.data (g.msg.read + j) = bs.getD j 0 % 256) := by
  induction bs with
  | nil =>
    intro g pm _ _ hne
    exact absurd rfl hne
  | cons b bs ih =>
    intro g pm hst hlen _
    rw [feedAll_cons, parse_data b hst]
    by_cases hbs : bs = []
    · subst hbs
      have hr : g.msg.length ≤ g.msg.read + 1 := by
        simp only [List.length_cons, List.length_nil] at hlen
        omega
      refine ⟨_, rfl, ?_, rfl, rfl, ?_, rfl, ?_, ?_⟩
      · show (if g.msg.length ≤ g.msg.read + 1 then PState.CHECKSUM
          else PState.DATA) = PState.CHECKSUM
        exact if_pos hr
      · show (g.msg.checksumcalc + b % 256) % 256 =
          (g.msg.checksumcalc + (b :: ([] : List Nat)).sum) % 256
        simp only [List.sum_cons, List.sum_nil]
        omega
      · intro i hi
        show (if i = g.msg.read then b % 256 else g.msg.data i) = g.msg.data i
        rw [if_neg (by omega)]
      · intro j hj
        have hj0 : j = 0 := by
          simp only [List.length_cons, List.length_nil] at hj
          omega
        subst hj0
        show (if g.msg.read + 0 = g.msg.read then b % 256
          else g.msg.data (g.msg.read + 0)) = (b :: ([] : List Nat)).getD 0 0 % 256
        rw [if_pos (by omega)]
        rfl
    · have hne2 : ¬ g.msg.length ≤ g.msg.read + 1 := by
        have : 1 ≤ bs.length := by
          cases bs with
          | nil => exact absurd rfl hbs
          | cons x xs => simp
        simp only [List.length_cons] at hlen
        omega
      obtain ⟨gf, hfeed, hstate, hlen2, hpt, hckc, hout, hbelow, hat⟩ :=
        ih ({ g with msg := { g.msg with
            data := fun i => if i = g.msg.read then b % 256 else g.msg.data i
            read := g.msg.read + 1
            checksumcalc := (g.msg.checksumcalc + b % 256) % 256
            state := if g.msg.length ≤ g.msg.read + 1 then PState.CHECKSUM
              else PState.DATA } }) pm
          (by show (if g.msg.length ≤ g.msg.read + 1 then PState.CHECKSUM
              else PState.DATA) = PState.DATA
              exact if_neg hne2)
          (by show g.msg.read + 1 + bs.length = g.msg.length
              simp only [List.length_cons] at hlen
              omega)
          hbs
      have hlen2b : gf.msg.length = g.msg.length := hlen2
      have hpt2 : gf.msg.packettype = g.msg.packettype := hpt
      have hckc2 : gf.msg.checksumcalc =
          ((g.msg.checksumcalc + b % 256) % 256 + bs.sum) % 256 := hckc
      have hout2 : gf.out = g.out := hout
      refine ⟨gf, ?_, hstate, hlen2b, hpt2, ?_, hout2, ?_, ?_⟩
      · simp only [List.length_cons, List.replicate_succ]
        rw [hfeed]
      · rw [hckc2]
        simp only [List.sum_cons]
        omega
      · intro i hi
        have h1 : gf.msg.data i =
            (if i = g.msg.read then b % 256 else g.msg.data i) :=
          hbelow i (by show i < g.msg.read + 1; omega)
        rw [h1, if_neg (by omega)]
      · intro j hj
        cases j with
        | zero =>
          have h1 : gf.msg.data g.msg.read =
              (if g.msg.read = g.msg.read then b % 256
                else g.msg.data g.msg.read) :=
            hbelow g.msg.read (by show g.msg.read < g.msg.read + 1; omega)
          rw [Nat.add_zero, h1, if_pos rfl]
          rfl
        | succ j2 =>
          have h1 : gf.msg.data (g.msg.read + 1 + j2) = bs.getD j2 0 % 256 :=
            hat j2 (by simp only [List.length_cons] at hj; omega)
          rw [show g.msg.read + (j2 + 1) = g.msg.read + 1 + j2 from by omega,
            h1]
          rfl

/-- `parse_stx` with the successor state written as an explicit
constructor, for chaining with `feed_header`. -/
theorem parse_stx2 {g : GSOF} {pm : Finset Nat}
    (h : g.msg.state = PState.STARTTX) :
    parse g pm 2 =
      (⟨MsgState.mk PState.STATUS g.msg.status g.msg.packettype g.msg.length
          g.msg.data 0 0 g.msg.checksum g.msg.endtx, g.out⟩, pm,
       ParseResult.NO_GSOF_DATA) := by
  rw [parse_stx h]

/-- Feeding the status, packet-type and length bytes from the post-STX
state: three `NO_GSOF_DATA` results and a transition to `DATA` with the three
header bytes stored and checksummed. -/
theorem feed_header (st pt ln : Nat) (d : Nat → Nat) (ck ex : Nat)
    (o : Outputs) (pm : Finset Nat) (s p n : Nat) (rest : List Nat) :
    feedAll ⟨MsgState.mk PState.STATUS st pt ln d 0 0 ck ex, o⟩ pm
        (s :: p :: n :: rest) =
      ((feedAll ⟨MsgState.mk PState.DATA (s % 256) (p % 256) (n % 256) d 0
          ((((0 + s % 256) % 256 + p % 256) % 256 + n % 256) % 256) ck ex, o⟩
          pm rest).1,
       (feedAll ⟨MsgState.mk PState.DATA (s % 256) (p % 256) (n % 256) d 0
          ((((0 + s % 256) % 256 + p % 256) % 256 + n % 256) % 256) ck ex, o⟩
          pm rest).2.1,
       ParseResult.NO_GSOF_DATA :: ParseResult.NO_GSOF_DATA ::
         ParseResult.NO_GSOF_DATA ::
         (feedAll ⟨MsgState.mk PState.DATA (s % 256) (p % 256) (n % 256) d 0
            ((((0 + s % 256) % 256 + p % 256) % 256 + n % 256) % 256) ck ex,
            o⟩ pm rest).2.2) := rfl

theorem feedAll_append (xs : List Nat) :
    ∀ (ys : List Nat) (g : GSOF) (pm : Finset Nat),
      feedAll g pm (xs ++ ys) =
        ((feedAll (feedAll g pm xs).1 (feedAll g pm xs).2.1 ys).1,
         (feedAll (feedAll g pm xs).1 (feedAll g pm xs).2.1 ys).2.1,
         (feedAll g pm xs).2.2 ++
           (feedAll (feedAll g pm xs).1 (feedAll g pm xs).2.1 ys).2.2) := by
  induction xs with
  | nil => intro ys g pm; rfl
  | cons b xs ih =>
    intro ys g pm
    rw [List.cons_append, feedAll_cons, feedAll_cons, ih]
    rfl

theorem itemsBuf_bytes_lt (items : List (Nat × List Nat))
    (hwf : ∀ it ∈ items, itemWF it) :
    ∀ x ∈ itemsBuf items, x < 256 := by
  induction items with
  | nil => intro x hx; simp [itemsBuf] at hx
  | cons it rest ih =>
    obtain ⟨k, v⟩ := it
    intro x hx
    have hwf0 := hwf (k, v) (List.mem_cons_self _ _)
    have hk : k < 256 := hwf0.1
    have hv : v.length ≤ 255 := hwf0.2.1
    have hvb : ∀ b ∈ v, b < 256 := hwf0.2.2
    rw [itemsBuf_cons] at hx
    simp only [List.mem_cons, List.mem_append] at hx
    rcases hx with rfl | rfl | hx | hx
    · exact hk
    · omega
    · exact hvb x hx
    · exact ih (fun y hy => hwf y (List.mem_cons_of_mem _ hy)) x hx

theorem items_le_itemsBuf_length (items : List (Nat × List Nat)) :
    items.length ≤ (itemsBuf items).length := by
  induction items with
  | nil => simp [itemsBuf]
  | cons it rest ih =>
    obtain ⟨k, v⟩ := it
    rw [itemsBuf_cons_length, List.length_cons]
    omega

/-- C8 amended: dispatch never clears the caller's bitset — it only adds
bits — so the bitset delivered with a well-formed frame equals the
caller-supplied bitset united with the kinds present (with a cleared input
bitset, exactly the kinds present).  With that correction the rest of the
claim holds: feeding a well-formed aggregate frame (STX, status, packet type
0x40, length = payload size ≤ 255, payload = 3-byte sub-header plus packed
items with in-range kinds, correct checksum, ETX) from the AwaitStart state
yields `PARSED_GSOF_DATA` exactly once, at the checksum byte, and the FSM is
back in AwaitStart after the end-marker byte. -/
theorem C8_wellformed_frame_bitset (g0 : GSOF) (pm : Finset Nat)
    (s etx : Nat) (sub : List Nat) (items : List (Nat × List Nat))
    (hstate : g0.msg.state = PState.STARTTX)
    (hsub : sub.length = 3)
    (hwf : ∀ it ∈ items, itemWF it)
    (hkr : ∀ it ∈ items, it.1 < msgTypesSize)
    (hN : (sub ++ itemsBuf items).length ≤ 255) :
    (feedAll g0 pm (frameBytes s 64 etx (sub ++ itemsBuf items))).2.2 =
      List.replicate (4 + (sub ++ itemsBuf items).length)
        ParseResult.NO_GSOF_DATA ++
        [ParseResult.PARSED_GSOF_DATA, ParseResult.NO_GSOF_DATA] ∧
    (feedAll g0 pm (frameBytes s 64 etx (sub ++ itemsBuf items))).2.1 =
      pm ∪ kindsOf items ∧
    (feedAll g0 pm
        (frameBytes s 64 etx (sub ++ itemsBuf items))).1.msg.state =
      PState.STARTTX := by
  have hibl : ∀ x ∈ itemsBuf items, x < 256 := itemsBuf_bytes_lt items hwf
  have hlen3 : (sub ++ itemsBuf items).length =
      3 + (itemsBuf items).length := by
    rw [List.length_append, hsub]
  have hfr : frameBytes s 64 etx (sub ++ itemsBuf items) =
      2 :: s :: 64 :: (sub ++ itemsBuf items).length ::
        ((sub ++ itemsBuf items) ++
          [(s + 64 + (sub ++ itemsBuf items).length +
            (sub ++ itemsBuf items).sum) % 256, etx]) := rfl
  rw [hfr, feedAll_cons, parse_stx2 hstate]
  dsimp only
  rw [feed_header]
  dsimp only
  rw [feedAll_append]
  obtain ⟨gf, hfeed, hstC, hlenf, hptf, hckcf, houtf, hbelow, hatf⟩ :=
    feed_data (sub ++ itemsBuf items)
      ⟨MsgState.mk PState.DATA (s % 256) (64 % 256)
        ((sub ++ itemsBuf items).length % 256) g0.msg.data 0
        ((((0 + s % 256) % 256 + 64 % 256) % 256 +
          (sub ++ itemsBuf items).length % 256) % 256)
        g0.msg.checksum g0.msg.endtx, g0.out⟩ pm
      rfl
      (by show 0 + (sub ++ itemsBuf items).length =
            (sub ++ itemsBuf items).length % 256
          omega)
      (by intro hc
          rw [hc] at hlen3
          simp only [List.length_nil] at hlen3
          omega)
  rw [hfeed]
  dsimp only
  have hckc2 : gf.msg.checksumcalc =
      (((((0 + s % 256) % 256 + 64 % 256) % 256 +
        (sub ++ itemsBuf items).length % 256) % 256) +
        (sub ++ itemsBuf items).sum) % 256 := hckcf
  have hmatch : ((s + 64 + (sub ++ itemsBuf items).length +
      (sub ++ itemsBuf items).sum) % 256) % 256 = gf.msg.checksumcalc := by
    rw [hckc2]
    omega
  rw [feedAll_cons, parse_checksum_match hstC hmatch]
  have hptf2 : gf.msg.packettype = 64 % 256 := hptf
  have hpt64 : ({ gf with msg := { gf.msg with
      checksum := ((s + 64 + (sub ++ itemsBuf items).length +
        (sub ++ itemsBuf items).sum) % 256) % 256
      state := PState.ENDTX } } : GSOF).msg.packettype = 64 := by
    show gf.msg.packettype = 64
    rw [hptf2]
  have hlenf2 : gf.msg.length = (sub ++ itemsBuf items).length % 256 := hlenf
  have hpm_eq : process_message ({ gf with msg := { gf.msg with
      checksum := ((s + 64 + (sub ++ itemsBuf items).length +
        (sub ++ itemsBuf items).sum) % 256) % 256
      state := PState.ENDTX } } : GSOF) pm =
      pmLoop gf.msg.length ({ gf with msg := { gf.msg with
        checksum := ((s + 64 + (sub ++ itemsBuf items).length +
          (sub ++ itemsBuf items).sum) % 256) % 256
        state := PState.ENDTX } } : GSOF) pm 3 := by
    unfold process_message
    rw [if_pos hpt64]
  have hbuf2 : bufMatches gf.msg.data 3 (itemsBuf items) := by
    intro i hi
    have h1 : gf.msg.data (0 + (3 + i)) =
        (sub ++ itemsBuf items).getD (3 + i) 0 % 256 :=
      hatf (3 + i) (by rw [hlen3]; omega)
    rw [Nat.zero_add] at h1
    have h2 : (sub ++ itemsBuf items).getD (3 + i) 0 =
        (itemsBuf items).getD i 0 := by
      rw [List.getD_append_right sub (itemsBuf items) 0 (3 + i) (by omega)]
      congr 1
      omega
    have h3 : (itemsBuf items).getD i 0 < 256 := by
      rw [List.getD_eq_getElem _ _ hi]
      exact hibl _ (List.getElem_mem hi)
    unfold byteAt
    rw [h1, h2]
    omega
  obtain ⟨g3, hg3, hg3msg⟩ := pmLoop_bits items gf.msg.length
    ({ gf with msg := { gf.msg with
      checksum := ((s + 64 + (sub ++ itemsBuf items).length +
        (sub ++ itemsBuf items).sum) % 256) % 256
      state := PState.ENDTX } } : GSOF) pm 3 hwf hkr
    (by show bufMatches gf.msg.data 3 (itemsBuf items); exact hbuf2)
    (by show gf.msg.length = 3 + (itemsBuf items).length
        rw [hlenf2, Nat.mod_eq_of_lt (by omega), hlen3])
    (by have h2 := items_le_itemsBuf_length items
        rw [hlenf2, Nat.mod_eq_of_lt (by omega)]
        omega)
    (by simp only [U32]; omega)
  rw [hpm_eq, hg3]
  dsimp only
  have hste : g3.msg.state = PState.ENDTX := by
    rw [hg3msg]
  rw [feedAll_cons, parse_endtx etx hste]
  dsimp only
  refine ⟨?_, rfl, rfl⟩
  rw [List.replicate_add]
  rfl

/-! ## Concrete states used in closed theorems -/

/-- Buffer whose cell `i` holds `100 + i` (distinct marker bytes). -/
def markerBuf : Nat → Nat := fun i => 100 + i

/-- A `GSOF` sitting on a validated GSOF payload: packet type `0x40`,
declared length `len`, buffer `d`, zeroed outputs. -/
def mkAggregate (len : Nat) (d : Nat → Nat) : GSOF :=
  { msg := { mkMsg PState.STARTTX d with packettype := 64, length := len }
    out := outputs0 }

/-- Outputs whose velocity slot has `velocity_flags = 5` (bits 0 and 2 set)
and `horizontal_velocity = 99`. -/
def outputsVel5 : Outputs :=
  { outputs0 with vel := { velocity_flags := 5, horizontal_velocity := 99,
                           vertical_velocity := 0, heading := 0 } }

/-- Payload of the C2 counterexample: a Time item, an unknown item of kind
200 (beyond the bitset capacity 71), then a DOP item whose hdop bytes are
`1,1,1,1`. -/
def payloadUnknownMid : List Nat :=
  [0, 0, 0] ++ itemsBuf
    [(APGSOF.POS_TIME, List.replicate 9 0), (200, []),
     (APGSOF.DOP, List.replicate 8 1)]

/-- The same payload with the unknown item removed. -/
def payloadKnownOnly : List Nat :=
  [0, 0, 0] ++ itemsBuf
    [(APGSOF.POS_TIME, List.replicate 9 0), (APGSOF.DOP, List.replicate 8 1)]

/-! ## Claim theorems (closed counterexamples and code-bug evaluations) -/

/-- C1: the claim says `parse_vel` reads the flags byte at offset 0 of the
item value and gates the writes on its bits.  The code instead gates on the
stored `vel.velocity_flags` field, which nothing in the source ever assigns:
(a) with stored flags 0, a payload whose flags byte is 5 (bits 0 and 2 set)
writes nothing, although the claim requires horizontal speed, vertical speed
and heading all written; (b) with stored flags 5, a payload whose flags byte
is 0 has its speed fields written anyway.  This theorem evaluates the decoder
at both failing inputs. -/
theorem C1_vel_gate_is_stored_flags :
    (byteAt (fun _ => 5) 0 = 5 ∧ Nat.testBit 5 0 = true ∧
      Nat.testBit 5 2 = true ∧
      (parse_vel (mkG PState.STARTTX (fun _ => 5) outputs0) 0).out =
        outputs0) ∧
    (byteAt (fun _ => 0) 0 = 0 ∧
      (parse_vel (mkG PState.STARTTX (fun _ => 0) outputsVel5)
          0).out.vel.horizontal_velocity = 0 ∧
      outputsVel5.vel.horizontal_velocity = 99) := by
  decide

/-- C2 counterexample: in the frame `payloadUnknownMid` the unknown kind 200
sits between a Time item and a DOP item.  The claim says the cursor advances
past it and the DOP item decodes exactly as if the unknown item were absent;
the code instead aborts dispatch (`return false`), so the DOP slot keeps its
prior value 0 and the frame yields no `PARSED_GSOF_DATA`, while the same
frame without the unknown item decodes hdop to `0x01010101`. -/
theorem C2_unknown_kind_aborts :
    (feedAll initG ∅ (frameBytes 0 64 3 payloadUnknownMid)).1.out.dop.hdop
        = 0 ∧
    ParseResult.PARSED_GSOF_DATA ∉
      (feedAll initG ∅ (frameBytes 0 64 3 payloadUnknownMid)).2.2 ∧
    (feedAll initG ∅ (frameBytes 0 64 3 payloadKnownOnly)).1.out.dop.hdop
        = 16843009 ∧
    ParseResult.PARSED_GSOF_DATA ∈
      (feedAll initG ∅ (frameBytes 0 64 3 payloadKnownOnly)).2.2 := by
  decide

/-- C3: the claim places sat-count at value offset 8, flags1 at 9 and flags2
at 10.  `parse_pos_time` reads them at offsets 6, 7 and 8 (overlapping the
32-bit week field it reads at offsets 4..7).  Evaluated on a buffer of
distinct marker bytes (`markerBuf i = 100 + i`). -/
theorem C3_pos_time_offsets_differ :
    (parse_pos_time (mkG PState.STARTTX markerBuf outputs0)
        0).out.pos_time.num_sats = byteAt markerBuf 6 ∧
    byteAt markerBuf 6 ≠ byteAt markerBuf 8 ∧
    (parse_pos_time (mkG PState.STARTTX markerBuf outputs0)
        0).out.pos_time.pos_flags1 = byteAt markerBuf 7 ∧
    byteAt markerBuf 7 ≠ byteAt markerBuf 9 ∧
    (parse_pos_time (mkG PState.STARTTX markerBuf outputs0)
        0).out.pos_time.pos_flags2 = byteAt markerBuf 8 ∧
    byteAt markerBuf 8 ≠ byteAt markerBuf 10 := by
  decide

/-- C4 counterexample: after `STX, status, packettype, length = 0` the FSM is
in the `DATA` state, not `CHECKSUM` as the claim states; the next byte (7
here) is consumed in the `DATA` state — it is stored in the buffer, counted
(`read = 1`) and only then the FSM moves to `CHECKSUM`, with the received
checksum field still untouched. -/
theorem C4_len0_goes_to_data :
    (feedAll initG ∅ [2, 0, 0, 0]).1.msg.state = PState.DATA ∧
    (feedAll initG ∅ [2, 0, 0, 0, 7]).1.msg.state = PState.CHECKSUM ∧
    (feedAll initG ∅ [2, 0, 0, 0, 7]).1.msg.read = 1 ∧
    (feedAll initG ∅ [2, 0, 0, 0, 7]).1.msg.data 0 = 7 ∧
    (feedAll initG ∅ [2, 0, 0, 0, 7]).1.msg.checksum = 0 := by
  decide

/-- C5 counterexample: a checksum-valid frame with packet type `0x40` and
payload length 3 (sub-header only, no items) yields `PARSED_GSOF_DATA`
(FrameOk) at its checksum byte, not FrameBad as the claim states: the
dispatcher returns true without having iterated a single item. -/
theorem C5_no_items_reports_frameok :
    (feedAll initG ∅ [2, 0, 64, 3, 0, 0, 0, 67]).2.2 =
      List.replicate 7 ParseResult.NO_GSOF_DATA ++
        [ParseResult.PARSED_GSOF_DATA] := by
  decide

/-- C6 counterexample: two aggregate payloads `[0,0,0, kind 1, itemLength 0]`
that agree on every one of their 5 payload bytes (hence on every byte within
every declared item) but differ beyond offset 5 produce different Time
slots: the Time decoder read bytes at offsets `≥ itemLength` past the item
value start (here, even beyond the payload). -/
theorem C6_decoder_reads_past_itemlength :
    (∀ i, i < 5 →
      byteAt (bufOf [0, 0, 0, 1, 0]) i =
      byteAt (fun j => if j < 5 then bufOf [0, 0, 0, 1, 0] j else 7) i) ∧
    (process_message (mkAggregate 5 (bufOf [0, 0, 0, 1, 0]))
        ∅).1.out.pos_time ≠
    (process_message (mkAggregate 5
        (fun j => if j < 5 then bufOf [0, 0, 0, 1, 0] j else 7))
        ∅).1.out.pos_time := by
  decide

/-- C8 counterexample: dispatch does not clear the caller's bitset.  Feeding
a well-formed frame whose only item has kind 1 (Time), starting from a bitset
in which bit 9 (DOP) is still set from before, delivers the bitset
`{1, 9}` — not `{1}`, the set of kinds present in the frame. -/
theorem C8_bitset_not_cleared :
    (feedAll initG {9} (frameBytes 0 64 3
        ([0, 0, 0] ++ itemsBuf [(APGSOF.POS_TIME, List.replicate 9 0)]))).2.1
      = ({1, 9} : Finset Nat) ∧
    ({1, 9} : Finset Nat) ≠ {1} := by
  decide

/-- C7: a frame whose received checksum byte differs from the accumulated
checksum never reaches the dispatcher — the result is `NO_GSOF_DATA`, the
bitset and every Output Model slot are untouched — yet the FSM still moves to
`ENDTX`, consumes one further byte there (again `NO_GSOF_DATA`, nothing
written), and returns to `STARTTX`: the malformed frame is fully
discarded. -/
theorem C7_checksum_mismatch_discards (g : GSOF) (pm : Finset Nat)
    (t u : Nat)
    (hst : g.msg.state = PState.CHECKSUM)
    (hm : ¬ t % 256 = g.msg.checksumcalc) :
    (parse g pm t).2.2 = ParseResult.NO_GSOF_DATA ∧
    (parse g pm t).2.1 = pm ∧
    (parse g pm t).1.out = g.out ∧
    (parse g pm t).1.msg.state = PState.ENDTX ∧
    (parse (parse g pm t).1 pm u).2.2 = ParseResult.NO_GSOF_DATA ∧
    (parse (parse g pm t).1 pm u).2.1 = pm ∧
    (parse (parse g pm t).1 pm u).1.out = g.out ∧
    (parse (parse g pm t).1 pm u).1.msg.state = PState.STARTTX := by
  rw [parse_checksum_mismatch hst hm]
  dsimp only
  have h2 : ({ g with msg := { g.msg with
      checksum := t % 256
      state := PState.ENDTX } } : GSOF).msg.state = PState.ENDTX := rfl
  rw [parse_endtx u h2]
  exact ⟨rfl, rfl, rfl, rfl, rfl, rfl, rfl, rfl⟩

/-- Witness for `C7_checksum_mismatch_discards`: a parser in the `CHECKSUM`
state with accumulated checksum 0 fed the mismatching byte 1 and then the
byte 7. -/
theorem C7_checksum_mismatch_discards_witness :
    (mkG PState.CHECKSUM (fun _ => 0) outputs0).msg.state =
      PState.CHECKSUM ∧
    ¬ (1 : Nat) % 256 =
      (mkG PState.CHECKSUM (fun _ => 0) outputs0).msg.checksumcalc ∧
    ((parse (mkG PState.CHECKSUM (fun _ => 0) outputs0) ∅ 1).2.2 =
        ParseResult.NO_GSOF_DATA ∧
      (parse (mkG PState.CHECKSUM (fun _ => 0) outputs0) ∅ 1).2.1 = ∅ ∧
      (parse (mkG PState.CHECKSUM (fun _ => 0) outputs0) ∅ 1).1.out =
        (mkG PState.CHECKSUM (fun _ => 0) outputs0).out ∧
      (parse (mkG PState.CHECKSUM (fun _ => 0) outputs0) ∅ 1).1.msg.state =
        PState.ENDTX ∧
      (parse (parse (mkG PState.CHECKSUM (fun _ => 0) outputs0) ∅ 1).1 ∅
          7).2.2 = ParseResult.NO_GSOF_DATA ∧
      (parse (parse (mkG PState.CHECKSUM (fun _ => 0) outputs0) ∅ 1).1 ∅
          7).2.1 = ∅ ∧
      (parse (parse (mkG PState.CHECKSUM (fun _ => 0) outputs0) ∅ 1).1 ∅
          7).1.out = (mkG PState.CHECKSUM (fun _ => 0) outputs0).out ∧
      (parse (parse (mkG PState.CHECKSUM (fun _ => 0) outputs0) ∅ 1).1 ∅
          7).1.msg.state = PState.STARTTX) :=
  ⟨rfl, by decide,
    C7_checksum_mismatch_discards (mkG PState.CHECKSUM (fun _ => 0) outputs0)
      ∅ 1 7 rfl (by decide)⟩

/-- C4 amended: when the Length byte declares N = 0 the FSM moves from
`LENGTH` to `DATA` (not directly to `CHECKSUM`); exactly one further byte is
consumed in the `DATA` state — stored in the buffer at offset 0 and added to
the running checksum — before the FSM moves to `CHECKSUM`, so it is the
second byte after the length byte that is interpreted as the checksum
byte. -/
theorem C4_len0_one_data_byte (g : GSOF) (pm : Finset Nat) (b : Nat)
    (hst : g.msg.state = PState.LENGTH)
    (hrd : g.msg.read = 0) :
    (parse g pm 0).1.msg.state = PState.DATA ∧
    (parse g pm 0).1.msg.length = 0 ∧
    (parse g pm 0).2.2 = ParseResult.NO_GSOF_DATA ∧
    (parse (parse g pm 0).1 pm b).1.msg.state = PState.CHECKSUM ∧
    (parse (parse g pm 0).1 pm b).1.msg.read = 1 ∧
    (parse (parse g pm 0).1 pm b).1.msg.data 0 = b % 256 ∧
    (parse (parse g pm 0).1 pm b).1.msg.checksumcalc =
      ((g.msg.checksumcalc + 0 % 256) % 256 + b % 256) % 256 ∧
    (parse (parse g pm 0).1 pm b).2.2 = ParseResult.NO_GSOF_DATA := by
  rw [parse_length 0 hst]
  dsimp only
  have h2 : (({ g with msg := { g.msg with
      length := 0 % 256
      state := PState.DATA
      checksumcalc := (g.msg.checksumcalc + 0 % 256) % 256 } } : GSOF).msg).state = PState.DATA := rfl
  rw [parse_data b h2]
  dsimp only
  refine ⟨rfl, rfl, rfl, ?_, ?_, ?_, rfl, rfl⟩
  · rw [if_pos (by omega)]
  · omega
  · rw [if_pos (by omega)]

/-- Witness for `C4_len0_one_data_byte`: a parser in the `LENGTH` state fed
the length byte 0 and then the byte 7. -/
theorem C4_len0_one_data_byte_witness :
    (mkG PState.LENGTH (fun _ => 0) outputs0).msg.state = PState.LENGTH ∧
    (mkG PState.LENGTH (fun _ => 0) outputs0).msg.read = 0 ∧
    ((parse (mkG PState.LENGTH (fun _ => 0) outputs0) ∅ 0).1.msg.state =
        PState.DATA ∧
      (parse (mkG PState.LENGTH (fun _ => 0) outputs0) ∅ 0).1.msg.length =
        0 ∧
      (parse (mkG PState.LENGTH (fun _ => 0) outputs0) ∅ 0).2.2 =
        ParseResult.NO_GSOF_DATA ∧
      (parse (parse (mkG PState.LENGTH (fun _ => 0) outputs0) ∅ 0).1 ∅
          7).1.msg.state = PState.CHECKSUM ∧
      (parse (parse (mkG PState.LENGTH (fun _ => 0) outputs0) ∅ 0).1 ∅
          7).1.msg.read = 1 ∧
      (parse (parse (mkG PState.LENGTH (fun _ => 0) outputs0) ∅ 0).1 ∅
          7).1.msg.data 0 = 7 % 256 ∧
      (parse (parse (mkG PState.LENGTH (fun _ => 0) outputs0) ∅ 0).1 ∅
          7).1.msg.checksumcalc =
        (((mkG PState.LENGTH (fun _ => 0) outputs0).msg.checksumcalc +
          0 % 256) % 256 + 7 % 256) % 256 ∧
      (parse (parse (mkG PState.LENGTH (fun _ => 0) outputs0) ∅ 0).1 ∅
          7).2.2 = ParseResult.NO_GSOF_DATA) :=
  ⟨rfl, rfl,
    C4_len0_one_data_byte (mkG PState.LENGTH (fun _ => 0) outputs0) ∅ 7
      rfl rfl⟩

/-- C5 amended: `process_message` returns true for every aggregate
(`packettype = 0x40`) payload regardless of whether any item was iterated; in
particular with payload length ≤ 3 the item loop body never runs and the
result is still true, so the parser reports such a frame as
`PARSED_GSOF_DATA` (FrameOk) with nothing added to the bitset — not
FrameBad as the claim states. -/
theorem C5_aggregate_no_items_true (g : GSOF) (pm : Finset Nat)
    (hpt : g.msg.packettype = 64) (hlen : g.msg.length ≤ 3) :
    process_message g pm = (g, pm, true) := by
  unfold process_message
  rw [if_pos hpt]
  cases hL : g.msg.length with
  | zero => rw [pmLoop_zero]
  | succ n =>
    rw [pmLoop_succ, if_neg (by omega)]

/-- Witness for `C5_aggregate_no_items_true`: an aggregate payload of length
3 (sub-header only). -/
theorem C5_aggregate_no_items_true_witness :
    (mkAggregate 3 (fun _ => 0)).msg.packettype = 64 ∧
    (mkAggregate 3 (fun _ => 0)).msg.length ≤ 3 ∧
    process_message (mkAggregate 3 (fun _ => 0)) ∅ =
      (mkAggregate 3 (fun _ => 0), ∅, true) :=
  ⟨rfl, by decide,
    C5_aggregate_no_items_true (mkAggregate 3 (fun _ => 0)) ∅ rfl
      (by decide)⟩

/-- C9: the dispatcher sets an item's bit before consulting the per-kind
`switch`, so an in-range kind with no decoder case (not among the eight
handled codes) is reported in the bitset even though no Output Model slot is
written: a single-item aggregate payload with such a kind dispatches
successfully, returns the state unchanged and adds exactly that kind. -/
theorem C9_inrange_unhandled_sets_bit (g : GSOF) (pm : Finset Nat)
    (k L : Nat)
    (hpt : g.msg.packettype = 64)
    (hlen : g.msg.length = 5 + L)
    (hb3 : byteAt g.msg.data 3 = k)
    (hb4 : byteAt g.msg.data 4 = L)
    (hL : L ≤ 255)
    (hk : k < msgTypesSize)
    (hkh : k ∉ handledKinds) :
    process_message g pm = (g, insert k pm, true) := by
  unfold process_message
  rw [if_pos hpt, hlen]
  rw [show 5 + L = (4 + L) + 1 from by omega, pmLoop_succ,
    if_pos (by omega)]
  rw [hb3, if_neg (not_le.mpr hk)]
  rw [show (3 : Nat) + 1 = 4 from by norm_num, hb4]
  rw [decodeItem_unhandled hkh]
  rw [cursor_advance hL (by simp only [U32]; omega)]
  rw [show (3 : Nat) + 2 + L = 5 + L from by omega]
  rw [show 4 + L = (3 + L) + 1 from by omega, pmLoop_succ,
    if_neg (by omega)]

/-- Witness for `C9_inrange_unhandled_sets_bit`: kind 3 (in range, no
decoder case) with itemLength 0. -/
theorem C9_inrange_unhandled_sets_bit_witness :
    (mkAggregate 5 (bufOf [0, 0, 0, 3, 0])).msg.packettype = 64 ∧
    (mkAggregate 5 (bufOf [0, 0, 0, 3, 0])).msg.length = 5 + 0 ∧
    byteAt (mkAggregate 5 (bufOf [0, 0, 0, 3, 0])).msg.data 3 = 3 ∧
    byteAt (mkAggregate 5 (bufOf [0, 0, 0, 3, 0])).msg.data 4 = 0 ∧
    (3 : Nat) < msgTypesSize ∧ (3 : Nat) ∉ handledKinds ∧
    process_message (mkAggregate 5 (bufOf [0, 0, 0, 3, 0])) ∅ =
      (mkAggregate 5 (bufOf [0, 0, 0, 3, 0]), insert 3 ∅, true) :=
  ⟨rfl, by decide, by decide, by decide, by decide, by decide,
    C9_inrange_unhandled_sets_bit (mkAggregate 5 (bufOf [0, 0, 0, 3, 0])) ∅
      3 0 rfl (by decide) (by decide) (by decide) (by decide) (by decide)
      (by decide)⟩

/-- C10: for an iterated item with itemLength 0 the cursor advances by
exactly two bytes (the kind byte and the length byte): the
`a += output_length - 1u` update is performed in 32-bit unsigned arithmetic,
so the zero length wraps to a decrement of one which the loop increment
restores, and dispatch continues at `a + 2` — it neither stalls nor moves
backwards. -/
theorem C10_zero_length_advances_two (f a : Nat) (g : GSOF)
    (pm : Finset Nat) (k : Nat)
    (hlt : a < g.msg.length)
    (hlen : g.msg.length ≤ 255)
    (hb0 : byteAt g.msg.data a = k)
    (hb1 : byteAt g.msg.data (a + 1) = 0)
    (hk : k < msgTypesSize) :
    pmLoop (f + 1) g pm a =
      pmLoop f (decodeItem k g (a + 2)) (insert k pm) (a + 2) := by
  rw [pmLoop_succ, if_pos hlt, hb0, hb1, if_neg (not_le.mpr hk)]
  rw [show (((a + 2 + ((0 : Nat) + (U32 - 1)) % U32) % U32) + 1) % U32 =
    a + 2 from by simp only [U32]; omega]

/-- Witness for `C10_zero_length_advances_two`: a zero-length item of kind 3
at cursor position 3 inside a 7-byte aggregate payload. -/
theorem C10_zero_length_advances_two_witness :
    (3 : Nat) < (mkAggregate 7 (bufOf [0, 0, 0, 3, 0, 9, 8])).msg.length ∧
    (mkAggregate 7 (bufOf [0, 0, 0, 3, 0, 9, 8])).msg.length ≤ 255 ∧
    byteAt (mkAggregate 7 (bufOf [0, 0, 0, 3, 0, 9, 8])).msg.data 3 = 3 ∧
    byteAt (mkAggregate 7 (bufOf [0, 0, 0, 3, 0, 9, 8])).msg.data (3 + 1) =
      0 ∧
    pmLoop 2 (mkAggregate 7 (bufOf [0, 0, 0, 3, 0, 9, 8])) ∅ 3 =
      pmLoop 1
        (decodeItem 3 (mkAggregate 7 (bufOf [0, 0, 0, 3, 0, 9, 8])) (3 + 2))
        (insert 3 ∅) (3 + 2) :=
  ⟨by decide, by decide, by decide, by decide,
    C10_zero_length_advances_two 1 3
      (mkAggregate 7 (bufOf [0, 0, 0, 3, 0, 9, 8])) ∅ 3 (by decide)
      (by decide) (by decide) (by decide) (by decide)⟩

/-- C6 amended: each decoder reads a fixed per-kind set of value-relative
offsets (`readFootprint`), independent of the declared itemLength, and every
such offset lies below the kind's fixed decoded size (`declLen`: Time 9,
Position 24, Velocity 13, DOP 8, Position-Sigma 20, INS full nav 80, INS RMS
8, MSL 24).  Consequently, whenever an item declares at least `declLen k`
value bytes, every byte the decoder depends on lies within the declared
item — two buffers that agree on those `L` bytes decode identically — but a
shorter declared itemLength does not restrict the reads (see the
counterexample). -/
theorem C6_reads_within_declared (k L a1 a2 : Nat) (g1 g2 : GSOF)
    (hL : declLen k ≤ L)
    (ho : g1.out = g2.out)
    (hagree : ∀ o, o < L →
      byteAt g1.msg.data (a1 + o) = byteAt g2.msg.data (a2 + o)) :
    (∀ f o, o ∈ readFootprint k f → o < declLen k) ∧
    (decodeItem k g1 a1).out = (decodeItem k g2 a2).out := by
  constructor
  · intro f o hmem
    exact footprint_lt_declLen hmem
  · apply decodeItem_congr ho
    intro o hmem
    exact hagree o (Nat.lt_of_lt_of_le (footprint_lt_declLen hmem) hL)

/-- Witness for `C6_reads_within_declared`: the Position decoder on two
buffers that agree on the 24 declared value bytes and differ beyond them. -/
theorem C6_reads_within_declared_witness :
    declLen APGSOF.POS ≤ 24 ∧
    (mkG PState.STARTTX (fun i => if i < 24 then i else 50) outputs0).out =
      (mkG PState.STARTTX (fun i => if i < 24 then i else 60) outputs0).out ∧
    (∀ o, o < 24 →
      byteAt (mkG PState.STARTTX (fun i => if i < 24 then i else 50)
        outputs0).msg.data (0 + o) =
      byteAt (mkG PState.STARTTX (fun i => if i < 24 then i else 60)
        outputs0).msg.data (0 + o)) ∧
    ((∀ f o, o ∈ readFootprint APGSOF.POS f → o < declLen APGSOF.POS) ∧
      (decodeItem APGSOF.POS (mkG PState.STARTTX
        (fun i => if i < 24 then i else 50) outputs0) 0).out =
      (decodeItem APGSOF.POS (mkG PState.STARTTX
        (fun i => if i < 24 then i else 60) outputs0) 0).out) :=
  ⟨by decide, rfl, by decide,
    C6_reads_within_declared APGSOF.POS 24 0 0
      (mkG PState.STARTTX (fun i => if i < 24 then i else 50) outputs0)
      (mkG PState.STARTTX (fun i => if i < 24 then i else 60) outputs0)
      (by decide) rfl (by decide)⟩

/-- C2 amended (forced by the counterexample): an unknown kind passes
through dispatch harmlessly only when it is still within the bitset range —
an in-range code with no decoder case.  Such an item has its bit set, decodes
nothing, and the cursor advances past it by its itemLength, so the items
around it decode exactly as if it were absent: for two aggregate payloads,
one with the unknown item spliced between `pre` and `post` and one without,
the decoded outputs and the success flag coincide and the delivered bitset
differs exactly by the unknown kind.  (A kind at or beyond the bitset
capacity instead aborts dispatch — production builds return false, SITL
panics — so items after it are not decoded.)  The surrounding items must
declare at least their decoders' fixed sizes, since decoders read fixed
offsets (see C6). -/
theorem C2_inrange_unknown_skipped (gA gB : GSOF) (pm : Finset Nat)
    (pre post : List (Nat × List Nat)) (k : Nat) (v : List Nat)
    (hwfA : ∀ it ∈ pre ++ (k, v) :: post, itemWF it)
    (hcontA : ∀ it ∈ pre ++ (k, v) :: post, declLen it.1 ≤ it.2.length)
    (hkinds : ∀ it ∈ pre ++ post, it.1 < msgTypesSize)
    (hk : k < msgTypesSize) (hkh : k ∉ handledKinds)
    (hptA : gA.msg.packettype = 64) (hptB : gB.msg.packettype = 64)
    (hout : gA.out = gB.out)
    (hbufA : bufMatches gA.msg.data 3 (itemsBuf (pre ++ (k, v) :: post)))
    (hbufB : bufMatches gB.msg.data 3 (itemsBuf (pre ++ post)))
    (hlenA : gA.msg.length = 3 + (itemsBuf (pre ++ (k, v) :: post)).length)
    (hlenB : gB.msg.length = 3 + (itemsBuf (pre ++ post)).length)
    (hlA : gA.msg.length ≤ 255) (hlB : gB.msg.length ≤ 255) :
    (process_message gA pm).1.out = (process_message gB pm).1.out ∧
    (process_message gA pm).2.1 =
      insert k (process_message gB pm).2.1 ∧
    (process_message gA pm).2.2 = true ∧
    (process_message gB pm).2.2 = true := by
  have hwfB : ∀ it ∈ pre ++ post, itemWF it := by
    intro it hit
    apply hwfA
    rcases List.mem_append.mp hit with h | h
    · exact List.mem_append.mpr (Or.inl h)
    · exact List.mem_append.mpr (Or.inr (List.mem_cons_of_mem _ h))
  have hcontB : ∀ it ∈ pre ++ post, declLen it.1 ≤ it.2.length := by
    intro it hit
    apply hcontA
    rcases List.mem_append.mp hit with h | h
    · exact List.mem_append.mpr (Or.inl h)
    · exact List.mem_append.mpr (Or.inr (List.mem_cons_of_mem _ h))
  have hfuelA : (pre ++ (k, v) :: post).length ≤ gA.msg.length := by
    have h1 := items_le_itemsBuf_length (pre ++ (k, v) :: post)
    omega
  have hfuelB : (pre ++ post).length ≤ gB.msg.length := by
    have h1 := items_le_itemsBuf_length (pre ++ post)
    omega
  have hUA : 3 + (itemsBuf (pre ++ (k, v) :: post)).length < U32 := by
    simp only [U32]
    omega
  have hUB : 3 + (itemsBuf (pre ++ post)).length < U32 := by
    simp only [U32]
    omega
  obtain ⟨hA1, hA2⟩ := pmLoop_items (pre ++ (k, v) :: post) gA.msg.length
    gA pm 3 hwfA hcontA hbufA hlenA hfuelA hUA
  obtain ⟨hB1, hB2⟩ := pmLoop_items (pre ++ post) gB.msg.length
    gB pm 3 hwfB hcontB hbufB hlenB hfuelB hUB
  rw [hout] at hA1 hA2
  have hskip := dispatchModel_skip pre post k v gB.out pm
    (fun it hit => hkinds it (List.mem_append.mpr (Or.inl hit))) hk hkh
  have hdB := dispatchModel_inrange (pre ++ post) gB.out pm hkinds
  have hA21 : (pmLoop gA.msg.length gA pm 3).2.1 =
      (dispatchModel (pre ++ (k, v) :: post) gB.out pm).2.1 := by
    rw [hA2]
  have hA22 : (pmLoop gA.msg.length gA pm 3).2.2 =
      (dispatchModel (pre ++ (k, v) :: post) gB.out pm).2.2 := by
    rw [hA2]
  have hB21 : (pmLoop gB.msg.length gB pm 3).2.1 =
      (dispatchModel (pre ++ post) gB.out pm).2.1 := by
    rw [hB2]
  have hB22 : (pmLoop gB.msg.length gB pm 3).2.2 =
      (dispatchModel (pre ++ post) gB.out pm).2.2 := by
    rw [hB2]
  unfold process_message
  rw [if_pos hptA, if_pos hptB]
  refine ⟨?_, ?_, ?_, ?_⟩
  · rw [hA1, hB1, hskip.1]
  · rw [hA21, hB21, hskip.2.1]
  · rw [hA22, hskip.2.2, ← hB22, hB2, hdB.2]
  · rw [hB22, hdB.2]

/-- Witness for `C2_inrange_unknown_skipped`: a Time item, a spliced unknown
in-range item of kind 3 with itemLength 0, and a DOP item. -/
theorem C2_inrange_unknown_skipped_witness :
    (process_message (mkAggregate 26 (bufOf ([0, 0, 0] ++ itemsBuf
        [(1, List.replicate 9 0), (3, []), (9, List.replicate 8 1)]))) ∅).1.out
      = (process_message (mkAggregate 24 (bufOf ([0, 0, 0] ++ itemsBuf
        [(1, List.replicate 9 0), (9, List.replicate 8 1)]))) ∅).1.out ∧
    (process_message (mkAggregate 26 (bufOf ([0, 0, 0] ++ itemsBuf
        [(1, List.replicate 9 0), (3, []), (9, List.replicate 8 1)]))) ∅).2.1
      = insert 3 (process_message (mkAggregate 24 (bufOf ([0, 0, 0] ++
        itemsBuf [(1, List.replicate 9 0), (9, List.replicate 8 1)])))
          ∅).2.1 ∧
    (process_message (mkAggregate 26 (bufOf ([0, 0, 0] ++ itemsBuf
        [(1, List.replicate 9 0), (3, []), (9, List.replicate 8 1)]))) ∅).2.2
      = true ∧
    (process_message (mkAggregate 24 (bufOf ([0, 0, 0] ++ itemsBuf
        [(1, List.replicate 9 0), (9, List.replicate 8 1)]))) ∅).2.2 =
      true :=
  C2_inrange_unknown_skipped
    (mkAggregate 26 (bufOf ([0, 0, 0] ++ itemsBuf
      [(1, List.replicate 9 0), (3, []), (9, List.replicate 8 1)])))
    (mkAggregate 24 (bufOf ([0, 0, 0] ++ itemsBuf
      [(1, List.replicate 9 0), (9, List.replicate 8 1)])))
    ∅ [(1, List.replicate 9 0)] [(9, List.replicate 8 1)] 3 []
    (by decide) (by decide) (by decide) (by decide) (by decide)
    rfl rfl rfl (by decide) (by decide) (by decide) (by decide)
    (by decide) (by decide)

/-- Witness for `C8_wellformed_frame_bitset`: the frame with one Time item
(kind 1, nine zero value bytes) fed to a fresh parser with an empty
bitset. -/
theorem C8_wellformed_frame_bitset_witness :
    initG.msg.state = PState.STARTTX ∧
    ([0, 0, 0] : List Nat).length = 3 ∧
    ((feedAll initG ∅ (frameBytes 0 64 3 ([0, 0, 0] ++ itemsBuf
        [(1, List.replicate 9 0)]))).2.2 =
      List.replicate (4 + (([0, 0, 0] : List Nat) ++ itemsBuf
        [(1, List.replicate 9 0)]).length) ParseResult.NO_GSOF_DATA ++
        [ParseResult.PARSED_GSOF_DATA, ParseResult.NO_GSOF_DATA] ∧
      (feedAll initG ∅ (frameBytes 0 64 3 ([0, 0, 0] ++ itemsBuf
        [(1, List.replicate 9 0)]))).2.1 =
        ∅ ∪ kindsOf [(1, List.replicate 9 0)] ∧
      (feedAll initG ∅ (frameBytes 0 64 3 ([0, 0, 0] ++ itemsBuf
        [(1, List.replicate 9 0)]))).1.msg.state = PState.STARTTX) :=
  ⟨rfl, rfl,
    C8_wellformed_frame_bitset initG ∅ 0 3 [0, 0, 0]
      [(1, List.replicate 9 0)] rfl rfl (by decide) (by decide)
      (by decide)⟩

end APGSOF
